import Mathlib

/-!
Verification of the reconciliation engine of the Consul-registrator repository.

The Go payloads are dynamic nested `map[string]any` values produced by HCL
parsing; they are embedded as a `Value` tree over association lists.  Go maps
are mutated in place; every embedded operation returns the updated map, and
in-place mutation through shared references is reproduced by explicitly
writing the updated sub-map back at each return path, exactly as the mutation
is visible in the source.

Two generations of the agent live in the repository.  The most recent one
(the full implementation with the change detector, address resolution and
prometheus bind-address validation) is embedded at top level; the earlier
generation of `agent.go` (the one with `applySidecarAutoAndDefaults`) is
embedded in namespace `V2` for the claims that cite its symbols.
-/

/-- Dynamic value tree standing for the Go `any` payloads flowing out of
`ParseServiceHCL` (string, int64, bool, nil, []any, map[string]any). -/
inductive Value where
  | str : String → Value
  | int : Int → Value
  | bool : Bool → Value
  | null : Value
  | list : List Value → Value
  | map : List (String × Value) → Value

/-- A Go `map[string]any`, embedded as an association list. -/
abbrev Svc := List (String × Value)

/-- Lookup in a Go map (`v, ok := m[k]`). -/
def aget : List (String × α) → String → Option α
  | [], _ => none
  | (k2, v) :: t, k => if k2 = k then some v else aget t k

/-- Write to a Go map (`m[k] = v`): replace in place when the key exists,
append otherwise. -/
def aset : List (String × α) → String → α → List (String × α)
  | [], k, v => [(k, v)]
  | (k2, v2) :: t, k, v => if k2 = k then (k, v) :: t else (k2, v2) :: aset t k v

/-- Delete from a Go map (`delete(m, k)`). -/
def adel : List (String × α) → String → List (String × α)
  | [], _ => []
  | (k2, v) :: t, k => if k2 = k then adel t k else (k2, v) :: adel t k

/-! ### String helpers

The Go code uses the strings / strconv standard packages.  The helpers below
re-implement the used operations over the character list of a `String` so
that concrete witnesses reduce inside the kernel. -/

/-- Go strings.ToLower (ASCII-adequate). -/
def lowerS (s : String) : String := ⟨s.data.map Char.toLower⟩

/-- Go strings.TrimSpace. -/
def trimS (s : String) : String :=
  ⟨((s.data.dropWhile Char.isWhitespace).reverse.dropWhile Char.isWhitespace).reverse⟩

/-- Go strings.HasPrefix. -/
def startsW (s p : String) : Bool := p.data.isPrefixOf s.data

/-- Go strings.HasSuffix. -/
def endsW (s p : String) : Bool := p.data.isSuffixOf s.data

/-- Drop the first `n` characters of a string (used for label-key suffixes,
where Go calls strings.TrimPrefix with a string known to be a prefix). -/
def dropS (s : String) (n : Nat) : String := ⟨s.data.drop n⟩

/-- Go strings.TrimPrefix with the single-character "/". -/
def dropSlash (s : String) : String :=
  if startsW s "/" then dropS s 1 else s

def subInAux (pat : List Char) : List Char → Bool
  | [] => pat.isEmpty
  | c :: t => pat.isPrefixOf (c :: t) || subInAux pat t

/-- Go strings.Contains. -/
def containsSub (s pat : String) : Bool := subInAux pat.data s.data

/-- Go strings.EqualFold on a trimmed left operand, the comparison the source
uses for check names (ASCII-adequate). -/
def eqFoldTrim (a b : String) : Bool := lowerS (trimS a) == lowerS b

def digitsVal : List Char → Option Nat
  | [] => none
  | l =>
    l.foldl
      (fun acc? c =>
        match acc? with
        | none => none
        | some acc =>
          if 48 ≤ c.toNat ∧ c.toNat ≤ 57 then some (acc * 10 + (c.toNat - 48)) else none)
      (some 0)

/-- Go strconv.Atoi: optional sign followed by at least one digit. -/
def atoi (s : String) : Option Int :=
  match s.data with
  | '+' :: rest => (digitsVal rest).map Int.ofNat
  | '-' :: rest => (digitsVal rest).map (fun n => -(n : Int))
  | l => (digitsVal l).map Int.ofNat

def lastIdxAux (c : Char) : List Char → Option Nat
  | [] => none
  | x :: t =>
    match lastIdxAux c t with
    | some i => some (i + 1)
    | none => if x = c then some 0 else none

def idxOfAux (c : Char) : List Char → Option Nat
  | [] => none
  | x :: t => if x = c then some 0 else (idxOfAux c t).map (· + 1)

/-- Byte-wise ≤ used to model Go sort.Strings. -/
def leChars : List Char → List Char → Bool
  | [], _ => true
  | _ :: _, [] => false
  | a :: s, b :: t => if a = b then leChars s t else a.toNat < b.toNat

def insSorted (x : String) : List String → List String
  | [] => [x]
  | y :: t => if leChars x.data y.data then x :: y :: t else y :: insSorted x t

/-- Model of Go sort.Strings (the engine sorts label keys for determinism). -/
def sortStrings (l : List String) : List String := l.foldr insSorted []

/-! ### Data model (docker.go, config in main.go) -/

/-- One entry of `NetworkSettings.Networks` in a Docker inspect result. -/
structure Network where
  ipAddress : String

/-- Docker container inspect form (docker.go `DockerInspect`, the fields the
engine reads). -/
structure DockerInspect where
  id : String
  name : String
  labels : List (String × String)
  networks : List Network

/-- Docker container summary (docker.go `DockerContainer`). -/
structure DockerContainer where
  id : String
  state : String
  labels : List (String × String)

/-- Engine configuration (`Config` / `LoadConfig`). -/
structure Config where
  sidecarEnabled : Bool
  sidecarImage : String
  sidecarHttpAddr : String
  sidecarGrpcAddr : String
  sidecarPrometheusBindAddr : String

/-- LoadConfig's filtering of SIDECAR_PROMETHEUS_BIND_ADDR: trim, then the
strings "", "0", "off", "false", "disabled" (lower-cased) disable injection
by clearing the value. -/
def promFilter (raw : String) : String :=
  let t := trimS raw
  let l := lowerS t
  if l == "" || l == "0" || l == "off" || l == "false" || l == "disabled" then "" else t

/-! ### Validation helpers (agent.go of the full generation) -/

/-- Go `isValidPort`. -/
def isValidPort (p : Int) : Bool := 1 ≤ p && p ≤ 65535

/-- Go `isLoopbackHost`. -/
def isLoopbackHost (host : String) : Bool :=
  let h := lowerS (trimS host)
  h == "127.0.0.1" || h == "localhost" || h == "::1"

/-- Go `isReservedSidecarPort`. -/
def isReservedSidecarPort (p : Int) : Bool :=
  p == 15000 || p == 15001 || p == 15002 || p == 15090 || p == 19000 || p == 19100

/-- Go `boolFromAny`: native booleans, or the trimmed lower-cased strings
"1", "true", "yes", "y", "on"; everything else is false. -/
def boolFromAny : Value → Bool
  | .bool b => b
  | .str s =>
    let t := lowerS (trimS s)
    t == "1" || t == "true" || t == "yes" || t == "y" || t == "on"
  | _ => false

/-- Go `intFromAny` (the int64 and float64 branches collapse onto the single
integer constructor of `Value`). -/
def intFromAny : Value → Int
  | .int i => i
  | .str s => match atoi (trimS s) with | some n => n | none => 0
  | _ => 0

/-- Model of the Go standard library net.SplitHostPort: the last colon
separates host from port, a bracketed host may contain colons, and stray
colons or brackets are errors. -/
def splitHostPort (s : String) : Option (String × String) :=
  let cs := s.data
  match lastIdxAux ':' cs with
  | none => none
  | some i =>
    let port := cs.drop (i + 1)
    if cs.head? = some '[' then
      match idxOfAux ']' cs with
      | none => none
      | some e =>
        if e + 1 == cs.length then none
        else if e + 1 == i then
          if ((cs.drop 1).contains '[') || ((cs.drop (e + 1)).contains ']') then none
          else some (⟨(cs.drop 1).take (e - 1)⟩, ⟨port⟩)
        else none
    else
      let host := cs.take i
      if host.contains ':' || cs.contains '[' || cs.contains ']' then none
      else some (⟨host⟩, ⟨port⟩)

/-- Go `parseHostPort`: trim, split, Atoi the port, default an empty host to
"0.0.0.0". -/
def parseHostPort (addr : String) : Option (String × Int) :=
  let a := trimS addr
  if a == "" then none
  else
    match splitHostPort a with
    | none => none
    | some (h, p) =>
      match atoi p with
      | none => none
      | some port => some ((if h == "" then "0.0.0.0" else h), port)

/-- The validation chain the source runs (twice, intentionally) before using
the prometheus bind address: parseHostPort must succeed, the port must be in
1..65535, the host must not be loopback, the port must not be a reserved
sidecar port. -/
def validBindAddr (addr : String) : Option (String × Int) :=
  match parseHostPort addr with
  | none => none
  | some (h, p) =>
    if isValidPort p && !(isLoopbackHost h) && !(isReservedSidecarPort p) then some (h, p)
    else none

/-- Go `resolveServiceAddress`: container display name stripped of the
leading "/", else the fallback (the service name), else the first non-empty
IP address, else empty. -/
def firstIP : List Network → String
  | [] => ""
  | n :: t => if n.ipAddress ≠ "" then n.ipAddress else firstIP t

def resolveServiceAddress (insp? : Option DockerInspect) (fallback : String) : String :=
  let byName :=
    match insp? with
    | some insp => dropSlash (trimS insp.name)
    | none => ""
  if byName ≠ "" then byName
  else if fallback ≠ "" then fallback
  else
    match insp? with
    | some insp => firstIP insp.networks
    | none => ""

/-! ### Check-key normalization (shared by both agent generations) -/

/-- One step of the `rename` closure in `normalizeCheckKeys` /
`normalizeOneCheck`: if the old key is present, copy its value to the new
key unless the new key already exists, then delete the old key. -/
def rename (m : Svc) (oldKey newKey : String) : Svc :=
  match aget m oldKey with
  | some v =>
    let m1 := if (aget m newKey).isSome then m else aset m newKey v
    adel m1 oldKey
  | none => m

/-- Go `normalizeCheckKeys`: the eight snake-case to Consul-API-case
renames. -/
def normalizeCheckKeys (m : Svc) : Svc :=
  let m1 := rename m "name" "Name"
  let m2 := rename m1 "http" "HTTP"
  let m3 := rename m2 "tcp" "TCP"
  let m4 := rename m3 "udp" "UDP"
  let m5 := rename m4 "interval" "Interval"
  let m6 := rename m5 "timeout" "Timeout"
  let m7 := rename m6 "alias_service" "AliasService"
  rename m7 "alias_node" "AliasNode"

/-- One placeholder-rewrite block of `rewriteAliasService`: a string value
under `key` that is empty, equals the service name, or is a literal
$SERVICE_ID / ${SERVICE_ID} placeholder is replaced by the service
identity. -/
def aliasFix (m : Svc) (key serviceName serviceID : String) : Svc :=
  match aget m key with
  | some (.str v) =>
    if v = "" ∨ v = serviceName ∨ v = "$SERVICE_ID" ∨ v = "${SERVICE_ID}" then
      aset m key (.str serviceID)
    else m
  | _ => m

/-- Go `rewriteAliasService` (full generation): rewrite both the title-case
and the snake-case key. -/
def rewriteAliasService (m : Svc) (serviceName serviceID : String) : Svc :=
  aliasFix (aliasFix m "AliasService" serviceName serviceID) "alias_service" serviceName serviceID

/-- The per-check normalization the full generation applies inside its checks
loop: `normalizeCheckKeys` followed by `rewriteAliasService`. -/
def normCheck (m : Svc) (serviceName serviceID : String) : Svc :=
  rewriteAliasService (normalizeCheckKeys m) serviceName serviceID

def normCheckVal (serviceName serviceID : String) : Value → Value
  | .map m => .map (normCheck m serviceName serviceID)
  | v => v

/-- Go `extractChecks`: prefer the `checks` sequence, else wrap a single
`check` mapping. -/
def extractChecks (sidecar : Svc) : List Value :=
  match aget sidecar "checks" with
  | some (.list raw) => raw
  | _ =>
    match aget sidecar "check" with
    | some (.map one) => [.map one]
    | _ => []

/-- Go `ensureEnvoyPrometheus`: create the `proxy` and `proxy.config`
mappings when absent (or non-mapping), then set
`envoy_prometheus_bind_addr` iff not already present. -/
def ensureEnvoyPrometheus (sidecar : Svc) (bindAddr : String) : Svc :=
  match aget sidecar "proxy" with
  | some (.map proxy) =>
    match aget proxy "config" with
    | some (.map cfg) =>
      if (aget cfg "envoy_prometheus_bind_addr").isSome then sidecar
      else
        aset sidecar "proxy"
          (.map (aset proxy "config" (.map (aset cfg "envoy_prometheus_bind_addr" (.str bindAddr)))))
    | _ =>
      aset sidecar "proxy"
        (.map (aset proxy "config" (.map [("envoy_prometheus_bind_addr", .str bindAddr)])))
  | _ =>
    aset sidecar "proxy"
      (.map [("config", .map [("envoy_prometheus_bind_addr", .str bindAddr)])])

/-- Blank test used by `ensureTransparentProxy` on `bind_address`
(Go: strings.TrimSpace(fmt.Sprint(v)) == "").  fmt.Sprint yields a
non-blank string for every non-string value (digits, true/false, <nil>,
[...], map[...]), so only string values can be blank. -/
def isBlankDisplay : Value → Bool
  | .str s => trimS s == ""
  | _ => false

/-- First stage of `ensureTransparentProxy` on the proxy map: migrate a
legacy `TransparentProxy` value to `transparent_proxy` when the canonical
key is absent and delete the legacy key. -/
def tpMigrate (p : Svc) : Svc :=
  match aget p "TransparentProxy" with
  | some v =>
    adel (if (aget p "transparent_proxy").isSome then p
          else aset p "transparent_proxy" v) "TransparentProxy"
  | none => p

/-- Second stage: ensure `transparent_proxy` exists as a (possibly empty)
mapping. -/
def tpEnsure (p : Svc) : Svc :=
  if (aget p "transparent_proxy").isSome then p
  else aset p "transparent_proxy" (.map [])

/-- Third stage: strip the caller-pinned listener ports (both casings) from
the `transparent_proxy` mapping. -/
def tpStrip (p : Svc) : Svc :=
  match aget p "transparent_proxy" with
  | some (Value.map tp) =>
    aset p "transparent_proxy"
      (Value.map (adel (adel (adel (adel tp "inbound_listener_port") "outbound_listener_port")
        "InboundListenerPort") "OutboundListenerPort"))
  | _ => p

/-- The proxy-map rewriting inside `ensureTransparentProxy` (the three
stages in source order). -/
def tpFixProxy (proxy0 : Svc) : Svc := tpStrip (tpEnsure (tpMigrate proxy0))

/-- The config-map rewriting inside `ensureTransparentProxy`: default
`bind_address` to "0.0.0.0" when missing or blank. -/
def tpFixConfig (cfg0 : Svc) : Svc :=
  let needsBind :=
    match aget cfg0 "bind_address" with
    | none => true
    | some v => isBlankDisplay v
  if needsBind then aset cfg0 "bind_address" (.str "0.0.0.0") else cfg0

/-- Go `ensureTransparentProxy`: migrate a legacy `TransparentProxy` key,
ensure `proxy.transparent_proxy` exists as a mapping, strip caller-pinned
listener ports, and default `proxy.config.bind_address` to "0.0.0.0" when
missing or blank. -/
def ensureTransparentProxy (sidecar : Svc) : Svc :=
  let proxy0 := match aget sidecar "proxy" with | some (.map p) => p | _ => ([] : Svc)
  let proxy3 := tpFixProxy proxy0
  let cfg0 := match aget proxy3 "config" with | some (.map c) => c | _ => ([] : Svc)
  aset sidecar "proxy" (.map (aset proxy3 "config" (.map (tpFixConfig cfg0))))

/-- Go `sidecarNeedsTransparentProxy`. -/
def sidecarNeedsTransparentProxy (svc : Svc) : Bool :=
  match aget svc "connect" with
  | some (.map connect) =>
    match aget connect "sidecar_service" with
    | some (.map sidecar) =>
      match aget sidecar "proxy" with
      | some (.map proxy) =>
        (aget proxy "transparent_proxy").isSome || (aget proxy "TransparentProxy").isSome
      | _ => false
    | _ => false
  | _ => false

/-! ### Sidecar auto/prometheus normalization (full generation) -/

/-- The Envoy Ready check the full generation injects. -/
def readyCheckFull (checkHost : String) : Value :=
  .map [("Name", .str "Envoy Ready"),
        ("HTTP", .str ("http://" ++ checkHost ++ ":19100/ready")),
        ("Interval", .str "10s"),
        ("Timeout", .str "2s")]

/-- The Envoy Metrics check. -/
def metricsCheck (checkHost : String) (port : Int) : Value :=
  .map [("Name", .str "Envoy Metrics"),
        ("TCP", .str (checkHost ++ ":" ++ toString port)),
        ("Interval", .str "30s"),
        ("Timeout", .str "2s")]

/-- The alias check. -/
def aliasCheck (serviceName serviceID : String) : Value :=
  .map [("Name", .str ("Connect Sidecar Aliasing " ++ serviceName)),
        ("AliasService", .str serviceID)]

def checkHasReady (c : Value) : Bool :=
  match c with
  | .map m =>
    match aget m "HTTP" with
    | some (.str v) => containsSub v "/ready"
    | _ => false
  | _ => false

def checkHasMetrics (c : Value) : Bool :=
  match c with
  | .map m =>
    (match aget m "HTTP" with
     | some (.str v) => containsSub v "/metrics"
     | _ => false) ||
    (match aget m "TCP" with
     | some (.str _) =>
       eqFoldTrim (match aget m "Name" with | some (.str n) => n | _ => "") "Envoy Metrics"
     | _ => false)
  | _ => false

def checkHasAlias (c : Value) : Bool :=
  match c with
  | .map m =>
    match aget m "AliasService" with
    | some (.str v) => v != ""
    | _ => false
  | _ => false

/-- The check host selection at the top of `applySidecarAutoAndProm`
(service name, overridden by a non-empty string `address`, overridden by a
non-empty string `Address`). -/
def promCheckHost (svc : Svc) (serviceName : String) : String :=
  let h1 :=
    match aget svc "address" with
    | some (.str a) => if a != "" then a else serviceName
    | _ => serviceName
  match aget svc "Address" with
  | some (.str a) => if a != "" then a else h1
  | _ => h1

/-- The consumption of the custom `auto` directive in
`applySidecarAutoAndProm` (full generation): read and delete `auto`, then
read and delete `Auto` — the later read winning — both coerced through
`boolFromAny`. -/
def autoExtract (sidecar0 : Svc) : Bool × Svc :=
  let st1 :=
    match aget sidecar0 "auto" with
    | some v => (boolFromAny v, adel sidecar0 "auto")
    | none => (false, sidecar0)
  match aget st1.2 "Auto" with
  | some v => (boolFromAny v, adel st1.2 "Auto")
  | none => st1

/-- The prometheus bind-address injection block at the end of
`applySidecarAutoAndProm`: when a sidecar is requested and the configured
address is non-blank, validate it (parse as host:port, port in 1..65535,
host not loopback, port not reserved) and inject it via
`ensureEnvoyPrometheus`; otherwise leave the sidecar untouched. -/
def promStage (sidecar3 : Svc) (cfg : Config) (sidecarRequested : Bool) : Svc :=
  if sidecarRequested && (trimS cfg.sidecarPrometheusBindAddr != "") then
    match validBindAddr cfg.sidecarPrometheusBindAddr with
    | some _ => ensureEnvoyPrometheus sidecar3 cfg.sidecarPrometheusBindAddr
    | none => sidecar3
  else sidecar3

/-- Go `applySidecarAutoAndProm` (full generation): consume the custom
`auto` flag, normalize existing sidecar checks, inject the ready / metrics /
alias checks and the transparent-proxy defaults when `auto`, collapse the
`check` singleton into `checks`, and inject the validated prometheus bind
address when a sidecar is requested. -/
def applySidecarAutoAndProm (svc : Svc) (serviceName serviceID : String)
    (cfg : Config) (sidecarRequested : Bool) : Svc :=
  match aget svc "connect" with
  | some (.map connect) =>
    match aget connect "sidecar_service" with
    | some (.map sidecar0) =>
      let checkHost := promCheckHost svc serviceName
      let st2 := autoExtract sidecar0
      let auto := st2.1
      let sidecar := st2.2
      let checks1 := (extractChecks sidecar).map (normCheckVal serviceName serviceID)
      let hasReady := checks1.any checkHasReady
      let hasMetrics := checks1.any checkHasMetrics
      let hasAlias := checks1.any checkHasAlias
      let checks2 := if auto && !hasReady then checks1 ++ [readyCheckFull checkHost] else checks1
      let checks3 :=
        if auto && !hasMetrics && sidecarRequested && (trimS cfg.sidecarPrometheusBindAddr != "") then
          match validBindAddr cfg.sidecarPrometheusBindAddr with
          | some hp => checks2 ++ [metricsCheck checkHost hp.2]
          | none => checks2
        else checks2
      let checks4 := if auto && !hasAlias then checks3 ++ [aliasCheck serviceName serviceID] else checks3
      let sidecar2 := if auto then ensureTransparentProxy sidecar else sidecar
      let sidecar3 :=
        if checks4.length > 0 then aset (adel sidecar2 "check") "checks" (.list checks4)
        else sidecar2
      aset svc "connect"
        (.map (aset connect "sidecar_service" (.map (promStage sidecar3 cfg sidecarRequested))))
    | _ => svc
  | _ => svc

/-! ### Service-level auto TCP check (full generation) -/

/-- The TCP check `applyAutoTCPCheckOnServiceOrEnvoy` appends. -/
def tcpCheckLit (checkName host : String) (port : Int) : Value :=
  .map [("Name", .str checkName),
        ("TCP", .str (host ++ ":" ++ toString port)),
        ("Interval", .str "10s"),
        ("Timeout", .str "2s"),
        ("Status", .str "passing"),
        ("FailuresBeforeCritical", .int 6),
        ("SuccessBeforePassing", .int 1)]

/-- The host selection in `applyAutoTCPCheckOnServiceOrEnvoy` (else-if chain:
a non-empty string `address` wins over a non-empty string `Address`, which
wins over the service name). -/
def tcpCheckHost (svc : Svc) (serviceName : String) : String :=
  let fromUpper :=
    match aget svc "Address" with
    | some (.str b) => if b != "" then b else serviceName
    | _ => serviceName
  match aget svc "address" with
  | some (.str a) => if a != "" then a else fromUpper
  | _ => fromUpper

/-- The per-check test of the existing-check loop in
`applyAutoTCPCheckOnServiceOrEnvoy` (on the key-normalized check): the TCP
target ends in the port suffix, or the trimmed name matches
case-insensitively. -/
def tcpHit (m2 : Svc) (targetSuffix checkName : String) : Bool :=
  (match aget m2 "TCP" with
   | some (.str v) => endsW v targetSuffix
   | _ => false) ||
  eqFoldTrim (match aget m2 "Name" with | some (.str n) => n | _ => "") checkName

/-- The existing-check scan in `applyAutoTCPCheckOnServiceOrEnvoy`: each
mapping element is key-normalized in place, and the scan stops at the first
matching check.  The returned list reflects the in-place normalization of
the scanned elements; the flag reports a match. -/
def scanChecks (checks : List Value) (targetSuffix checkName : String) :
    List Value × Bool :=
  match checks with
  | [] => ([], false)
  | c :: rest =>
    match c with
    | .map m =>
      let m2 := normalizeCheckKeys m
      if tcpHit m2 targetSuffix checkName then (Value.map m2 :: rest, true)
      else
        let r := scanChecks rest targetSuffix checkName
        (Value.map m2 :: r.1, r.2)
    | other =>
      let r := scanChecks rest targetSuffix checkName
      (other :: r.1, r.2)

/-- The (check-port, check-name) selection of
`applyAutoTCPCheckOnServiceOrEnvoy`: the transparent-proxy listener 15000,
or the coerced service port when it is in 1..65535 and not a reserved
sidecar port. -/
def tcpTarget (svc : Svc) (serviceName : String) : Option (Int × String) :=
  if sidecarNeedsTransparentProxy svc then
    some (15000, "Envoy TP Listener " ++ serviceName)
  else
    let p0 := intFromAny ((aget svc "port").getD Value.null)
    let port := if p0 == 0 then intFromAny ((aget svc "Port").getD Value.null) else p0
    if port < 1 || 65535 < port then none
    else if isReservedSidecarPort port then none
    else some (port, "Service TCP " ++ serviceName)

/-- Go `applyAutoTCPCheckOnServiceOrEnvoy`: pick the transparent-proxy
listener (15000) or the service port (skipping invalid and reserved ports),
skip if an equivalent check already exists, otherwise append the TCP check
and collapse the `check` singleton into `checks`. -/
def applyAutoTCPCheckOnServiceOrEnvoy (svc : Svc) (serviceName : String) : Svc :=
  let host := tcpCheckHost svc serviceName
  match tcpTarget svc serviceName with
  | none => svc
  | some (checkPort, checkName) =>
    let suffix := ":" ++ toString checkPort
    match aget svc "checks" with
    | some (.list raw) =>
      let r := scanChecks raw suffix checkName
      if r.2 then aset svc "checks" (.list r.1)
      else aset (adel svc "check") "checks" (.list (r.1 ++ [tcpCheckLit checkName host checkPort]))
    | _ =>
      match aget svc "check" with
      | some (.map one) =>
        let m2 := normalizeCheckKeys one
        if tcpHit m2 suffix checkName then aset svc "check" (.map m2)
        else
          aset (adel svc "check") "checks"
            (.list ([Value.map m2] ++ [tcpCheckLit checkName host checkPort]))
      | _ =>
        aset (adel svc "check") "checks" (.list [tcpCheckLit checkName host checkPort])

/-! ### One reconciliation tick (full generation `Agent.Run`) -/

/-- The per-label payload pipeline of `Agent.Run` (full generation): assign
`id`, resolve the address when neither `address` nor `Address` is present,
then apply the sidecar and service-level normalizations. -/
def buildPayload (cfg : Config) (insp : DockerInspect) (svcName serviceID : String)
    (sidecarRequested : Bool) (svc0 : Svc) : Svc :=
  let svc1 := aset svc0 "id" (.str serviceID)
  let svc2 :=
    if (aget svc1 "address").isNone && (aget svc1 "Address").isNone then
      let addr := resolveServiceAddress (some insp) svcName
      if addr != "" then aset svc1 "address" (.str addr) else svc1
    else svc1
  let svc3 := applySidecarAutoAndProm svc2 svcName serviceID cfg sidecarRequested
  applyAutoTCPCheckOnServiceOrEnvoy svc3 svcName

/-- External collaborators of one tick (Docker driver, Consul driver, the
HCL library parse, the SHA-256 of the JSON serialization, the clock), given
as oracles: the engine only branches on their outcomes. -/
structure TickEnv where
  containers : List DockerContainer
  inspect : String → Option DockerInspect
  parseHCL : String → Option Svc
  registerOK : String → Bool
  deregisterOK : String → Bool
  hash : Svc → String
  now : Nat
  cfg : Config

/-- In-memory agent bookkeeping: `state.Services` (keys of the map, every
stored value is `true`), `servicePayloadHash`, `lastRegisterAt`. -/
structure AgentState where
  services : List String
  payloadHash : List (String × String)
  lastRegisterAt : List (String × Nat)

/-- One processed (container, label) pair: the derived identity, the
normalized payload, whether a register call was issued, and whether it
succeeded. -/
structure Entry where
  id : String
  payload : Svc
  attempted : Bool
  succeeded : Bool

/-- The validation and payload construction for one label
(`Agent.Run`, full generation, inner loop before the register decision):
parse, check `name` is a string equal to the non-empty label suffix, build
the service identity and the normalized payload. -/
def jobEntry (env : TickEnv) (insp : DockerInspect) (k : String) :
    Option (String × Svc × Bool) :=
  let labelName := dropS k 15
  match env.parseHCL ((aget insp.labels k).getD "") with
  | none => none
  | some svc0 =>
    match aget svc0 "name" with
    | some (.str svcName) =>
      if svcName == "" || svcName != labelName then none
      else
        let serviceID := insp.id ++ ":" ++ svcName
        let sidecarRequested := (aget insp.labels ("consul.sidecar." ++ labelName)).isSome
        some (serviceID, buildPayload env.cfg insp svcName serviceID sidecarRequested svc0,
          sidecarRequested)
    | _ => none

/-- The (identity, payload) jobs one container contributes: inspect failure
skips the container, sidecar containers are skipped, label keys with the
`consul.service.` prefix are processed in sorted order. -/
def containerEntries (env : TickEnv) (c : DockerContainer) : List (String × Svc × Bool) :=
  match env.inspect c.id with
  | none => []
  | some insp =>
    if ((aget c.labels "consul-registrator").getD "") == "sidecar" then []
    else
      let keys := sortStrings ((insp.labels.map Prod.fst).filter (fun k => startsW k "consul.service."))
      keys.filterMap (fun k => jobEntry env insp k)

def tickEntries (env : TickEnv) : List (String × Svc × Bool) :=
  (env.containers.map (containerEntries env)).flatten

/-- Go `time.Since(a.lastRegisterAt[id]) >= defaultReRegisterInterval` with
the interval in seconds; a missing entry is Go's zero time, which in any
real run is more than five minutes in the past. -/
def refreshElapsed (lastAt : List (String × Nat)) (now : Nat) (id : String) : Bool :=
  match aget lastAt id with
  | some t => 300 ≤ now - t
  | none => true

/-- The register decision of the change detector (`Agent.Run`, full
generation): first observation, else stored-fingerprint mismatch (a missing
stored fingerprint counts as a mismatch), else refresh-interval expiry. -/
def shouldRegister (env : TickEnv) (st : AgentState) (id : String) (h : String) : Bool :=
  if !(st.services.contains id) then true
  else if aget st.payloadHash id != some h then true
  else refreshElapsed st.lastRegisterAt env.now id

structure LoopState where
  st : AgentState
  processed : List Entry
  found : List String

def insertId (l : List String) (id : String) : List String :=
  if l.contains id then l else l ++ [id]

/-- Processing of one derived (identity, payload) pair in `Agent.Run` (full
generation): mark the identity as found, decide via the change detector,
and on a successful register update all three maps; on a failed register
update nothing; on skip re-mark `state.Services[id] = true`. -/
def stepEntry (env : TickEnv) (ls : LoopState) (e : String × Svc × Bool) : LoopState :=
  let id := e.1
  let svc := e.2.1
  let h := env.hash svc
  let found2 := insertId ls.found id
  if shouldRegister env ls.st id h then
    if env.registerOK id then
      { st := { services := insertId ls.st.services id,
                payloadHash := aset ls.st.payloadHash id h,
                lastRegisterAt := aset ls.st.lastRegisterAt id env.now },
        processed := ls.processed ++ [⟨id, svc, true, true⟩],
        found := found2 }
    else
      { st := ls.st,
        processed := ls.processed ++ [⟨id, svc, true, false⟩],
        found := found2 }
  else
    { st := { ls.st with services := insertId ls.st.services id },
      processed := ls.processed ++ [⟨id, svc, false, false⟩],
      found := found2 }

structure TickResult where
  processed : List Entry
  found : List String
  deregisters : List String
  finalState : AgentState

/-- One full reconciliation tick (`Agent.Run`, full generation): process
every derived (identity, payload) pair, then deregister each identity in
local state that was not found this tick — best-effort, the outcome is
discarded — removing it from all three maps. -/
def runTick (env : TickEnv) (st0 : AgentState) : TickResult :=
  let ls := (tickEntries env).foldl (stepEntry env) ⟨st0, [], []⟩
  let stale := ls.st.services.filter (fun id => !(ls.found.contains id))
  { processed := ls.processed
    found := ls.found
    deregisters := stale
    finalState :=
      { services := ls.st.services.filter (fun id => ls.found.contains id)
        payloadHash := ls.st.payloadHash.filter (fun p => !(stale.contains p.1))
        lastRegisterAt := ls.st.lastRegisterAt.filter (fun p => !(stale.contains p.1)) } }

/-- Identities whose register call succeeded during the tick. -/
def TickResult.regOK (r : TickResult) : List String :=
  (r.processed.filter (fun e => e.succeeded)).map (fun e => e.id)

/-! ### Earlier generation of agent.go (namespace V2)

This is the generation several claims cite by line number: no change
detector (every valid label registers each tick), `found` marked only after
a successful register, `applySidecarAutoAndDefaults` instead of
`applySidecarAutoAndProm`. -/

namespace V2

/-- Go `normalizeOneCheck` (earlier generation): the eight renames followed
by the AliasService placeholder rewrite. -/
def normalizeOneCheck (m : Svc) (serviceName serviceID : String) : Svc :=
  aliasFix (normalizeCheckKeys m) "AliasService" serviceName serviceID

def normalizeOneCheckVal (serviceName serviceID : String) : Value → Value
  | .map m => .map (normalizeOneCheck m serviceName serviceID)
  | v => v

/-- The `checks` block of Go `normalizeSidecarChecks`: normalize every
mapping element of the `checks` sequence. -/
def checksPass (sidecar : Svc) (serviceName serviceID : String) : Svc :=
  match aget sidecar "checks" with
  | some (Value.list raw) =>
    aset sidecar "checks" (Value.list (raw.map (normalizeOneCheckVal serviceName serviceID)))
  | _ => sidecar

/-- The `check` block of Go `normalizeSidecarChecks`: normalize the `check`
singleton mapping. -/
def checkPass (sidecar : Svc) (serviceName serviceID : String) : Svc :=
  match aget sidecar "check" with
  | some (Value.map one) =>
    aset sidecar "check" (Value.map (normalizeOneCheck one serviceName serviceID))
  | _ => sidecar

/-- Go `normalizeSidecarChecks`: normalize every mapping element of the
`checks` sequence and the `check` singleton. -/
def normalizeSidecarChecks (sidecar : Svc) (serviceName serviceID : String) : Svc :=
  checkPass (checksPass sidecar serviceName serviceID) serviceName serviceID

/-- Go `getChecksSlice` (identical to the full generation's
`extractChecks`). -/
def getChecksSlice (sidecar : Svc) : List Value := extractChecks sidecar

/-- Go `hasReadyCheck`: some check's HTTP (either casing) contains
"/ready". -/
def hasReadyCheck (checks : List Value) : Bool :=
  checks.any fun c =>
    match c with
    | .map m =>
      (match aget m "HTTP" with | some (.str v) => containsSub v "/ready" | _ => false) ||
      (match aget m "http" with | some (.str v) => containsSub v "/ready" | _ => false)
    | _ => false

/-- Go `hasAliasCheck`: some check carries an AliasService / alias_service
key (any value). -/
def hasAliasCheck (checks : List Value) : Bool :=
  checks.any fun c =>
    match c with
    | .map m => (aget m "AliasService").isSome || (aget m "alias_service").isSome
    | _ => false

/-- Go `dockerResolvableName`: the container display name without the
leading "/", else the fallback. -/
def dockerResolvableName (insp? : Option DockerInspect) (fallback : String) : String :=
  match insp? with
  | some insp =>
    if insp.name ≠ "" then
      let n := dropSlash insp.name
      if n ≠ "" then n else fallback
    else fallback
  | none => fallback

/-- Go `containerIP`: first non-empty IP address over the inspected
networks. -/
def containerIP (insp? : Option DockerInspect) : String :=
  match insp? with
  | some insp => firstIP insp.networks
  | none => ""

/-- The ready check injected by the earlier generation (no Timeout). -/
def readyCheck (host : String) : Value :=
  .map [("Name", .str "Envoy Ready"),
        ("HTTP", .str ("http://" ++ host ++ ":19100/ready")),
        ("Interval", .str "10s")]

/-- The else-if extraction of the custom `auto` flag at the head of
`applySidecarAutoAndDefaults`: an `auto` key holding a boolean wins and is
deleted; otherwise an `Auto` key holding a boolean is used and deleted;
otherwise the flag is false and the mapping is untouched (a non-boolean
value fails the type assertion and is left in place). -/
def autoSplit (sidecar : Svc) : Bool × Svc :=
  match aget sidecar "auto" with
  | some (.bool b) => (b, adel sidecar "auto")
  | _ =>
    match aget sidecar "Auto" with
    | some (.bool b) => (b, adel sidecar "Auto")
    | _ => (false, sidecar)

/-- The prometheus stage of `applySidecarAutoAndDefaults`: inject the bind
address whenever one is configured. -/
def promPass (sidecar2 : Svc) (cfg? : Option Config) : Svc :=
  match cfg? with
  | some cfg =>
    if cfg.sidecarPrometheusBindAddr != "" then
      ensureEnvoyPrometheus sidecar2 cfg.sidecarPrometheusBindAddr
    else sidecar2
  | none => sidecar2

/-- The `auto` branch of `applySidecarAutoAndDefaults`: append the ready and
alias checks when semantically absent, then re-normalize. -/
def autoChecks (sidecar3 : Svc) (serviceName serviceID host : String) : Svc :=
  let checks0 := getChecksSlice sidecar3
  let checks1 := if !(hasReadyCheck checks0) then checks0 ++ [readyCheck host] else checks0
  let checks2 :=
    if !(hasAliasCheck checks1) then checks1 ++ [aliasCheck serviceName serviceID]
    else checks1
  normalizeSidecarChecks (aset sidecar3 "checks" (.list checks2)) serviceName serviceID

/-- Go `applySidecarAutoAndDefaults` (earlier generation): consume the
custom `auto` flag (else-if over the `auto` / `Auto` keys, boolean type
assertion), normalize existing checks and placeholders, inject the
prometheus bind address unconditionally when configured, and when `auto`
holds inject the ready and alias checks keyed by semantic presence, then
re-normalize. -/
def applySidecarAutoAndDefaults (svc : Svc) (serviceName serviceID : String)
    (insp? : Option DockerInspect) (cfg? : Option Config) : Svc :=
  match aget svc "connect" with
  | some (.map connect) =>
    match aget connect "sidecar_service" with
    | some (.map sidecar0) =>
      let st1 := autoSplit sidecar0
      let auto := st1.1
      let sidecar1 := st1.2
      let sidecar2 := normalizeSidecarChecks sidecar1 serviceName serviceID
      let sidecar3 := promPass sidecar2 cfg?
      let writeback := fun (s : Svc) =>
        aset svc "connect" (.map (aset connect "sidecar_service" (.map s)))
      if !auto then writeback sidecar3
      else
        let host0 := dockerResolvableName insp? serviceName
        let host := if host0 == "" then containerIP insp? else host0
        if host == "" then writeback sidecar3
        else writeback (autoChecks sidecar3 serviceName serviceID host)
    | _ => svc
  | _ => svc

/-- One processed (identity, payload) pair of the earlier generation's
`Agent.Run` (a register call is always issued). -/
structure EntryV where
  id : String
  payload : Svc
  succeeded : Bool

/-- The per-label pipeline of the earlier generation: assign `id`, apply
`applySidecarAutoAndDefaults`. -/
def buildPayload (cfg : Config) (insp : DockerInspect) (svcName serviceID : String)
    (svc0 : Svc) : Svc :=
  applySidecarAutoAndDefaults (aset svc0 "id" (.str serviceID)) svcName serviceID
    (some insp) (some cfg)

def jobEntry (env : TickEnv) (insp : DockerInspect) (k : String) :
    Option (String × Svc) :=
  let labelName := dropS k 15
  match env.parseHCL ((aget insp.labels k).getD "") with
  | none => none
  | some svc0 =>
    match aget svc0 "name" with
    | some (.str svcName) =>
      if svcName == "" || svcName != labelName then none
      else
        let serviceID := insp.id ++ ":" ++ svcName
        some (serviceID, buildPayload env.cfg insp svcName serviceID svc0)
    | _ => none

def containerEntries (env : TickEnv) (c : DockerContainer) : List (String × Svc) :=
  match env.inspect c.id with
  | none => []
  | some insp =>
    if ((aget c.labels "consul-registrator").getD "") == "sidecar" then []
    else
      let keys := sortStrings ((insp.labels.map Prod.fst).filter (fun k => startsW k "consul.service."))
      keys.filterMap (fun k => jobEntry env insp k)

def tickEntries (env : TickEnv) : List (String × Svc) :=
  (env.containers.map (containerEntries env)).flatten

structure LoopStateV where
  services : List String
  processed : List EntryV
  found : List String

/-- Processing one derived pair in the earlier generation's `Agent.Run`:
always register; only on success add to `state.Services` and mark the
identity as found. -/
def stepEntry (env : TickEnv) (ls : LoopStateV) (e : String × Svc) : LoopStateV :=
  let id := e.1
  let svc := e.2
  if env.registerOK id then
    { services := insertId ls.services id,
      processed := ls.processed ++ [⟨id, svc, true⟩],
      found := insertId ls.found id }
  else
    { ls with processed := ls.processed ++ [⟨id, svc, false⟩] }

structure TickResultV where
  processed : List EntryV
  found : List String
  deregisters : List String
  finalServices : List String

/-- One tick of the earlier generation's `Agent.Run`: register every valid
label, then deregister each identity in local state that was not found —
best-effort, the outcome discarded — and delete it from local state. -/
def runTick (env : TickEnv) (services0 : List String) : TickResultV :=
  let ls := (tickEntries env).foldl (stepEntry env) ⟨services0, [], []⟩
  let stale := ls.services.filter (fun id => !(ls.found.contains id))
  { processed := ls.processed
    found := ls.found
    deregisters := stale
    finalServices := ls.services.filter (fun id => ls.found.contains id) }

end V2

/-! ### HCL label parsing (ParseServiceHCL) -/

/-- The post-parse shape of an hclsyntax body as the repository reads it: the
attributes with their evaluated values (`none` when `Expr.Value` reports
evaluation diagnostics, e.g. a variable reference against the empty
evaluation context) and the nested blocks in order.  Scalars are the
`ctyToGo` images (string, int64, bool, null for unknown values, sequences,
mappings). -/
inductive HBody where
  | mk (attrs : List (String × Option Value)) (blocks : List (String × HBody)) : HBody

def exOk : Except Unit α → Bool
  | .ok _ => true
  | .error _ => false

/-- The attribute loop of `hclBodyToMap`: any evaluation diagnostic aborts
with an error, otherwise each value lands in the output map. -/
def attrsToMap : List (String × Option Value) → Except Unit Svc
  | [] => .ok []
  | (_, none) :: _ => .error ()
  | (k, some v) :: rest =>
    match attrsToMap rest with
    | .error e => .error e
    | .ok m => .ok (aset m k v)

mutual
/-- Go `hclBodyToMap`: attributes first, then nested blocks recursively,
a later block of the same type overwriting an earlier sibling. -/
def hclBodyToMap : HBody → Except Unit Svc
  | .mk attrs blocks =>
    match attrsToMap attrs with
    | .error e => .error e
    | .ok base => blocksInto blocks base
def blocksInto : List (String × HBody) → Svc → Except Unit Svc
  | [], acc => .ok acc
  | (t, b) :: rest, acc =>
    match hclBodyToMap b with
    | .error e => .error e
    | .ok child => blocksInto rest (aset acc t (.map child))
end

/-- The top-level block scan of `ParseServiceHCL`: at most one block of type
`service`, error on a second one. -/
def scanService : Option HBody → List (String × HBody) → Except Unit (Option HBody)
  | acc, [] => .ok acc
  | acc, (t, b) :: rest =>
    if t = "service" then
      match acc with
      | some _ => .error ()
      | none => scanService (some b) rest
    else scanService acc rest

/-- Go `ParseServiceHCL` over the parse outcome of the HCL library
(`none` models syntax diagnostics from ParseHCL): reject a syntax error,
reject zero or several top-level `service` blocks, convert the single
block's body. -/
def ParseServiceHCL (parsed : Option HBody) : Except Unit Svc :=
  match parsed with
  | none => .error ()
  | some (.mk _ blocks) =>
    match scanService none blocks with
    | .error _ => .error ()
    | .ok none => .error ()
    | .ok (some b) => hclBodyToMap b

mutual
/-- Specification-side predicate: every attribute of the body tree
evaluates without diagnostics. -/
def bodyEvalOk : HBody → Bool
  | .mk attrs blocks => attrs.all (fun p => p.2.isSome) && blocksEvalOk blocks
def blocksEvalOk : List (String × HBody) → Bool
  | [] => true
  | (_, b) :: rest => bodyEvalOk b && blocksEvalOk rest
end

/-- Number of top-level blocks of type `service`. -/
def countService (blocks : List (String × HBody)) : Nat :=
  (blocks.filter (fun p => p.1 == "service")).length

/-- The first top-level `service` block. -/
def firstService : List (String × HBody) → Option HBody
  | [] => none
  | (t, b) :: rest => if t = "service" then some b else firstService rest


/-- Read connect.sidecar_service.proxy.config.envoy_prometheus_bind_addr
from a sidecar mapping. -/
def getEnvoy (sidecar : Svc) : Option Value :=
  match aget sidecar "proxy" with
  | some (.map p) =>
    match aget p "config" with
    | some (.map c) => aget c "envoy_prometheus_bind_addr"
    | _ => none
  | _ => none

/-- Read the same field from a whole service payload. -/
def getSidecarEnvoy (svc : Svc) : Option Value :=
  match aget svc "connect" with
  | some (.map connect) =>
    match aget connect "sidecar_service" with
    | some (.map sidecar) => getEnvoy sidecar
    | _ => none
  | _ => none

/-- A concrete parsed input for `ParseServiceHCL`: syntactically valid,
exactly one top-level `service` block, but with one attribute whose
evaluation reports diagnostics (Go: e.g. a variable reference evaluated
against the empty EvalContext). -/
def badBody : HBody := .mk [("name", none)] []

def parsedBad : Option HBody := some (.mk [] [("service", badBody)])

/-- The view of the agent bookkeeping at one identity (membership in
`state.Services`, stored fingerprint, stored last-register instant) — the
only state the register decision reads. -/
def stateAt (st : AgentState) (id : String) : Bool × Option String × Option Nat :=
  (st.services.contains id, aget st.payloadHash id, aget st.lastRegisterAt id)

/-! ### Concrete tick fixtures -/

/-- A container inspect form carrying one `consul.service.` label whose HCL
value the parse oracle maps to `svcW`. -/
def inspW : DockerInspect :=
  { id := "abc123", name := "", labels := [("consul.service.api", "L")], networks := [] }

/-- The parsed service mapping for that label. -/
def svcW : Svc := [("name", .str "api"), ("port", .int 8080)]

/-- A configuration with the sidecar machinery disabled. -/
def cfgW : Config :=
  { sidecarEnabled := false, sidecarImage := "", sidecarHttpAddr := "",
    sidecarGrpcAddr := "", sidecarPrometheusBindAddr := "" }

/-- A tick environment with one running container, one valid service label,
an always-succeeding registry, and a fixed fingerprint oracle. -/
def envW : TickEnv :=
  { containers := [{ id := "abc123", state := "running", labels := [] }]
    inspect := fun cid => if cid == "abc123" then some inspW else none
    parseHCL := fun s => if s == "L" then some svcW else none
    registerOK := fun _ => true
    deregisterOK := fun _ => true
    hash := fun _ => "h1"
    now := 1000
    cfg := cfgW }

/-- Empty starting bookkeeping. -/
def stW : AgentState := { services := [], payloadHash := [], lastRegisterAt := [] }

/-- The single entry `envW` produces in a tick from `stW`. -/
def entW : Entry :=
  { id := "abc123:api", payload := buildPayload cfgW inspW "api" "abc123:api" false svcW,
    attempted := true, succeeded := true }

/-- A tick environment that observes no containers and whose deregister
calls all fail. -/
def envC2 : TickEnv :=
  { containers := []
    inspect := fun _ => none
    parseHCL := fun _ => none
    registerOK := fun _ => false
    deregisterOK := fun _ => false
    hash := fun _ => "h1"
    now := 1000
    cfg := cfgW }

/-- Bookkeeping holding one identity from a previous tick. -/
def stC2 : AgentState :=
  { services := ["old:svc"], payloadHash := [], lastRegisterAt := [] }

/-- The same environment as `envW` but with every register call failing. -/
def envF : TickEnv :=
  { envW with registerOK := fun _ => false }

/-- A configuration with a usable prometheus bind address. -/
def cfgP : Config :=
  { sidecarEnabled := true, sidecarImage := "", sidecarHttpAddr := "",
    sidecarGrpcAddr := "", sidecarPrometheusBindAddr := "0.0.0.0:20200" }

/-- A payload that already carries a `connect.sidecar_service` mapping. -/
def svcP : Svc := [("name", .str "api"), ("connect", .map [("sidecar_service", .map [])])]

/-- Whether the value at `k` is a native boolean (the shape the earlier
generation's `.(bool)` type assertion accepts). -/
def isBoolAt (s : Svc) (k : String) : Bool :=
  match aget s k with
  | some (.bool _) => true
  | _ => false

/-- The `connect.sidecar_service` mapping of a payload, when present. -/
def sidecarOf (svc : Svc) : Option Svc :=
  match aget svc "connect" with
  | some (.map connect) =>
    match aget connect "sidecar_service" with
    | some (.map s) => some s
    | _ => none
  | _ => none

/-- The sidecar mapping does not carry boolean values under both the `auto`
and the `Auto` key at once (the else-if extraction consumes only one of
them per pass). -/
def noDoubleAuto (svc : Svc) : Bool :=
  match sidecarOf svc with
  | some s => !(isBoolAt s "auto" && isBoolAt s "Auto")
  | none => true

/-- Probe: does the sidecar mapping still carry an `Auto` key? -/
def hasAutoKeyInSidecar (svc : Svc) : Bool :=
  match sidecarOf svc with
  | some s => (aget s "Auto").isSome
  | none => false

/-- A payload whose sidecar mapping carries boolean `auto` and `Auto` keys
at once. -/
def svcC8 : Svc :=
  [("connect", .map [("sidecar_service",
      .map [("auto", .bool false), ("Auto", .bool false)])])]

/-- A payload exercising the `auto = true` branch. -/
def svcC8w : Svc :=
  [("connect", .map [("sidecar_service", .map [("auto", .bool true)])])]

/-! ### Association-list lemmas -/

-- FIXTURES-END

@[simp]
theorem aget_aset_self (l : List (String × α)) (k : String) (v : α) :
    aget (aset l k v) k = some v := by
  induction l with
  | nil => simp [aget, aset]
  | cons p t ih =>
    obtain ⟨k2, v2⟩ := p
    by_cases h : k2 = k <;> simp [aget, aset, h, ih]

theorem aget_aset_of_ne (l : List (String × α)) {k k2 : String} (v : α)
    (h : k2 ≠ k) : aget (aset l k v) k2 = aget l k2 := by
  induction l with
  | nil => simp [aget, aset, Ne.symm h]
  | cons p t ih =>
    obtain ⟨k3, v3⟩ := p
    by_cases h3 : k3 = k
    · subst h3
      simp [aget, aset, Ne.symm h]
    · by_cases h4 : k3 = k2
      · subst h4
        simp [aget, aset, h3]
      · simp [aget, aset, h3, h4, ih]

@[simp]
theorem aget_adel_self (l : List (String × α)) (k : String) :
    aget (adel l k) k = none := by
  induction l with
  | nil => simp [aget, adel]
  | cons p t ih =>
    obtain ⟨k2, v2⟩ := p
    by_cases h : k2 = k <;> simp [aget, adel, h, ih]

theorem aget_adel_of_ne (l : List (String × α)) {k k2 : String}
    (h : k2 ≠ k) : aget (adel l k) k2 = aget l k2 := by
  induction l with
  | nil => simp [aget, adel]
  | cons p t ih =>
    obtain ⟨k3, v3⟩ := p
    by_cases h3 : k3 = k
    · subst h3
      simp [aget, adel, Ne.symm h, ih]
    · by_cases h4 : k3 = k2
      · subst h4
        simp [aget, adel, h3]
      · simp [aget, adel, h3, h4, ih]

theorem aset_eq_of_aget (l : List (String × α)) {k : String} {v : α}
    (h : aget l k = some v) : aset l k v = l := by
  induction l with
  | nil => simp [aget] at h
  | cons p t ih =>
    obtain ⟨k2, v2⟩ := p
    by_cases h2 : k2 = k
    · subst h2
      simp [aget] at h
      simp [aset, h]
    · simp [aget, h2] at h
      simp [aset, h2, ih h]

theorem adel_eq_of_aget (l : List (String × α)) {k : String}
    (h : aget l k = none) : adel l k = l := by
  induction l with
  | nil => simp [adel]
  | cons p t ih =>
    obtain ⟨k2, v2⟩ := p
    by_cases h2 : k2 = k
    · subst h2
      simp [aget] at h
    · simp [aget, h2] at h
      simp [adel, h2, ih h]

/-! ### Rename and alias-rewrite lemmas -/

theorem rename_get_new (m : Svc) {o n : String} (h : o ≠ n) :
    aget (rename m o n) n = ((aget m n).orElse fun _ => aget m o) := by
  unfold rename
  cases ho : aget m o with
  | none => cases hn : aget m n <;> simp [Option.orElse, hn]
  | some v =>
    by_cases hn : (aget m n).isSome
    · obtain ⟨w, hw⟩ := Option.isSome_iff_exists.mp hn
      simp [hn, hw, Option.orElse, aget_adel_of_ne _ (Ne.symm h)]
    · simp only [hn, if_false, Bool.false_eq_true]
      rw [aget_adel_of_ne _ (Ne.symm h), aget_aset_self]
      simp [Option.not_isSome_iff_eq_none.mp hn, Option.orElse, ho]

theorem rename_get_old (m : Svc) (o n : String) :
    aget (rename m o n) o = none := by
  unfold rename
  cases ho : aget m o with
  | none => exact ho
  | some v => simp

theorem rename_get_other (m : Svc) {o n k : String} (h1 : k ≠ o) (h2 : k ≠ n) :
    aget (rename m o n) k = aget m k := by
  unfold rename
  cases ho : aget m o with
  | none => rfl
  | some v =>
    by_cases hn : (aget m n).isSome <;>
      simp [hn, aget_adel_of_ne _ h1, aget_aset_of_ne _ _ h2]

theorem rename_fixed (m : Svc) {o : String} (n : String) (h : aget m o = none) :
    rename m o n = m := by
  unfold rename
  simp [h]

theorem aliasFix_get_self (m : Svc) (key serviceName serviceID : String) :
    aget (aliasFix m key serviceName serviceID) key =
      match aget m key with
      | some (.str v) =>
        some (.str (if v = "" ∨ v = serviceName ∨ v = "$SERVICE_ID" ∨ v = "${SERVICE_ID}"
          then serviceID else v))
      | x => x := by
  unfold aliasFix
  cases hv : aget m key with
  | none => simp [hv]
  | some v =>
    cases v with
    | str s =>
      by_cases hc : s = "" ∨ s = serviceName ∨ s = "$SERVICE_ID" ∨ s = "${SERVICE_ID}"
      · simp [hc]
      · simp [hc, hv]
    | int i => simp [hv]
    | bool b => simp [hv]
    | null => simp [hv]
    | list l => simp [hv]
    | map mm => simp [hv]

theorem aliasFix_get_other (m : Svc) {key k : String} (serviceName serviceID : String)
    (h : k ≠ key) :
    aget (aliasFix m key serviceName serviceID) k = aget m k := by
  unfold aliasFix
  cases hv : aget m key with
  | none => simp [hv]
  | some v =>
    cases v with
    | str s =>
      by_cases hc : s = "" ∨ s = serviceName ∨ s = "$SERVICE_ID" ∨ s = "${SERVICE_ID}" <;>
        simp [hc, hv, aget_aset_of_ne _ _ h]
    | int i => simp [hv]
    | bool b => simp [hv]
    | null => simp [hv]
    | list l => simp [hv]
    | map mm => simp [hv]

theorem norm_get_Name (m : Svc) :
    aget (normalizeCheckKeys m) "Name" = ((aget m "Name").orElse fun _ => aget m "name") := by
  unfold normalizeCheckKeys
  rw [rename_get_other _ (by decide) (by decide),
      rename_get_other _ (by decide) (by decide),
      rename_get_other _ (by decide) (by decide),
      rename_get_other _ (by decide) (by decide),
      rename_get_other _ (by decide) (by decide),
      rename_get_other _ (by decide) (by decide),
      rename_get_other _ (by decide) (by decide),
      rename_get_new _ (by decide)]

theorem norm_get_HTTP (m : Svc) :
    aget (normalizeCheckKeys m) "HTTP" = ((aget m "HTTP").orElse fun _ => aget m "http") := by
  unfold normalizeCheckKeys
  rw [rename_get_other _ (by decide) (by decide),
      rename_get_other _ (by decide) (by decide),
      rename_get_other _ (by decide) (by decide),
      rename_get_other _ (by decide) (by decide),
      rename_get_other _ (by decide) (by decide),
      rename_get_other _ (by decide) (by decide),
      rename_get_new _ (by decide),
      rename_get_other _ (by decide) (by decide),
      rename_get_other _ (by decide) (by decide)]

theorem norm_get_TCP (m : Svc) :
    aget (normalizeCheckKeys m) "TCP" = ((aget m "TCP").orElse fun _ => aget m "tcp") := by
  unfold normalizeCheckKeys
  rw [rename_get_other _ (by decide) (by decide),
      rename_get_other _ (by decide) (by decide),
      rename_get_other _ (by decide) (by decide),
      rename_get_other _ (by decide) (by decide),
      rename_get_other _ (by decide) (by decide),
      rename_get_new _ (by decide),
      rename_get_other _ (by decide) (by decide),
      rename_get_other _ (by decide) (by decide),
      rename_get_other _ (by decide) (by decide),
      rename_get_other _ (by decide) (by decide)]

theorem norm_get_UDP (m : Svc) :
    aget (normalizeCheckKeys m) "UDP" = ((aget m "UDP").orElse fun _ => aget m "udp") := by
  unfold normalizeCheckKeys
  rw [rename_get_other _ (by decide) (by decide),
      rename_get_other _ (by decide) (by decide),
      rename_get_other _ (by decide) (by decide),
      rename_get_other _ (by decide) (by decide),
      rename_get_new _ (by decide),
      rename_get_other _ (by decide) (by decide),
      rename_get_other _ (by decide) (by decide),
      rename_get_other _ (by decide) (by decide),
      rename_get_other _ (by decide) (by decide),
      rename_get_other _ (by decide) (by decide),
      rename_get_other _ (by decide) (by decide)]

theorem norm_get_Interval (m : Svc) :
    aget (normalizeCheckKeys m) "Interval" =
      ((aget m "Interval").orElse fun _ => aget m "interval") := by
  unfold normalizeCheckKeys
  rw [rename_get_other _ (by decide) (by decide),
      rename_get_other _ (by decide) (by decide),
      rename_get_other _ (by decide) (by decide),
      rename_get_new _ (by decide),
      rename_get_other _ (by decide) (by decide),
      rename_get_other _ (by decide) (by decide),
      rename_get_other _ (by decide) (by decide),
      rename_get_other _ (by decide) (by decide),
      rename_get_other _ (by decide) (by decide),
      rename_get_other _ (by decide) (by decide),
      rename_get_other _ (by decide) (by decide),
      rename_get_other _ (by decide) (by decide)]

theorem norm_get_Timeout (m : Svc) :
    aget (normalizeCheckKeys m) "Timeout" =
      ((aget m "Timeout").orElse fun _ => aget m "timeout") := by
  unfold normalizeCheckKeys
  rw [
      rename_get_other _ (by decide) (by decide),
      rename_get_other _ (by decide) (by decide),
      rename_get_new _ (by decide),
      rename_get_other _ (by decide) (by decide),
      rename_get_other _ (by decide) (by decide),
      rename_get_other _ (by decide) (by decide),
      rename_get_other _ (by decide) (by decide),
      rename_get_other _ (by decide) (by decide),
      rename_get_other _ (by decide) (by decide),
      rename_get_other _ (by decide) (by decide),
      rename_get_other _ (by decide) (by decide),
      rename_get_other _ (by decide) (by decide),
      rename_get_other _ (by decide) (by decide)]

theorem norm_get_AliasService (m : Svc) :
    aget (normalizeCheckKeys m) "AliasService" =
      ((aget m "AliasService").orElse fun _ => aget m "alias_service") := by
  unfold normalizeCheckKeys
  rw [
      rename_get_other _ (by decide) (by decide),
      rename_get_new _ (by decide),
      rename_get_other _ (by decide) (by decide),
      rename_get_other _ (by decide) (by decide),
      rename_get_other _ (by decide) (by decide),
      rename_get_other _ (by decide) (by decide),
      rename_get_other _ (by decide) (by decide),
      rename_get_other _ (by decide) (by decide),
      rename_get_other _ (by decide) (by decide),
      rename_get_other _ (by decide) (by decide),
      rename_get_other _ (by decide) (by decide),
      rename_get_other _ (by decide) (by decide),
      rename_get_other _ (by decide) (by decide),
      rename_get_other _ (by decide) (by decide)]

theorem norm_get_AliasNode (m : Svc) :
    aget (normalizeCheckKeys m) "AliasNode" =
      ((aget m "AliasNode").orElse fun _ => aget m "alias_node") := by
  unfold normalizeCheckKeys
  rw [
      rename_get_new _ (by decide),
      rename_get_other _ (by decide) (by decide),
      rename_get_other _ (by decide) (by decide),
      rename_get_other _ (by decide) (by decide),
      rename_get_other _ (by decide) (by decide),
      rename_get_other _ (by decide) (by decide),
      rename_get_other _ (by decide) (by decide),
      rename_get_other _ (by decide) (by decide),
      rename_get_other _ (by decide) (by decide),
      rename_get_other _ (by decide) (by decide),
      rename_get_other _ (by decide) (by decide),
      rename_get_other _ (by decide) (by decide),
      rename_get_other _ (by decide) (by decide),
      rename_get_other _ (by decide) (by decide),
      rename_get_other _ (by decide) (by decide)]

theorem norm_gone_aliasnode (m : Svc) :
    aget (normalizeCheckKeys m) "alias_node" = none := by
  unfold normalizeCheckKeys
  rw [rename_get_old]

theorem norm_gone_aliasservice (m : Svc) :
    aget (normalizeCheckKeys m) "alias_service" = none := by
  unfold normalizeCheckKeys
  rw [rename_get_other _ (by decide) (by decide), rename_get_old]

theorem norm_gone_timeout (m : Svc) :
    aget (normalizeCheckKeys m) "timeout" = none := by
  unfold normalizeCheckKeys
  rw [rename_get_other _ (by decide) (by decide),
      rename_get_other _ (by decide) (by decide), rename_get_old]

theorem norm_gone_interval (m : Svc) :
    aget (normalizeCheckKeys m) "interval" = none := by
  unfold normalizeCheckKeys
  rw [rename_get_other _ (by decide) (by decide),
      rename_get_other _ (by decide) (by decide),
      rename_get_other _ (by decide) (by decide), rename_get_old]

theorem norm_gone_udp (m : Svc) :
    aget (normalizeCheckKeys m) "udp" = none := by
  unfold normalizeCheckKeys
  rw [rename_get_other _ (by decide) (by decide),
      rename_get_other _ (by decide) (by decide),
      rename_get_other _ (by decide) (by decide),
      rename_get_other _ (by decide) (by decide), rename_get_old]

theorem norm_gone_tcp (m : Svc) :
    aget (normalizeCheckKeys m) "tcp" = none := by
  unfold normalizeCheckKeys
  rw [rename_get_other _ (by decide) (by decide),
      rename_get_other _ (by decide) (by decide),
      rename_get_other _ (by decide) (by decide),
      rename_get_other _ (by decide) (by decide),
      rename_get_other _ (by decide) (by decide), rename_get_old]

theorem norm_gone_http (m : Svc) :
    aget (normalizeCheckKeys m) "http" = none := by
  unfold normalizeCheckKeys
  rw [rename_get_other _ (by decide) (by decide),
      rename_get_other _ (by decide) (by decide),
      rename_get_other _ (by decide) (by decide),
      rename_get_other _ (by decide) (by decide),
      rename_get_other _ (by decide) (by decide),
      rename_get_other _ (by decide) (by decide), rename_get_old]

theorem norm_gone_name (m : Svc) :
    aget (normalizeCheckKeys m) "name" = none := by
  unfold normalizeCheckKeys
  rw [rename_get_other _ (by decide) (by decide),
      rename_get_other _ (by decide) (by decide),
      rename_get_other _ (by decide) (by decide),
      rename_get_other _ (by decide) (by decide),
      rename_get_other _ (by decide) (by decide),
      rename_get_other _ (by decide) (by decide),
      rename_get_other _ (by decide) (by decide), rename_get_old]

/-- Keys outside the sixteen rename keys are untouched by
`normalizeCheckKeys`. -/
theorem norm_get_other (m : Svc) {k : String}
    (h : k ∉ (["name", "http", "tcp", "udp", "interval", "timeout", "alias_service",
      "alias_node", "Name", "HTTP", "TCP", "UDP", "Interval", "Timeout", "AliasService",
      "AliasNode"] : List String)) :
    aget (normalizeCheckKeys m) k = aget m k := by
  simp only [List.mem_cons, not_or, List.mem_singleton, List.not_mem_nil] at h
  obtain ⟨h1, h2, h3, h4, h5, h6, h7, h8, h9, h10, h11, h12, h13, h14, h15, h16, -⟩ := h
  unfold normalizeCheckKeys
  rw [rename_get_other _ h8 h16,
      rename_get_other _ h7 h15,
      rename_get_other _ h6 h14,
      rename_get_other _ h5 h13,
      rename_get_other _ h4 h12,
      rename_get_other _ h3 h11,
      rename_get_other _ h2 h10,
      rename_get_other _ h1 h9]

/-- C6: for every check mapping under connect.sidecar_service, the per-check
normalization renames the snake-case keys to the registry's title case
(name→Name, http→HTTP, tcp→TCP, udp→UDP, interval→Interval,
timeout→Timeout, alias_service→AliasService, alias_node→AliasNode) — each
value moving to the title key when that key is not already present, the
snake keys disappearing — and rewrites an AliasService value that is empty,
equals the service name, or equals a literal $SERVICE_ID / ${SERVICE_ID}
placeholder, to the service identity <container-id>:<name>. -/
theorem C6_check_key_normalization (m : Svc) (containerID name : String) :
    (aget (V2.normalizeOneCheck m name (containerID ++ ":" ++ name)) "Name" =
      ((aget m "Name").orElse fun _ => aget m "name")) ∧
    (aget (V2.normalizeOneCheck m name (containerID ++ ":" ++ name)) "HTTP" =
      ((aget m "HTTP").orElse fun _ => aget m "http")) ∧
    (aget (V2.normalizeOneCheck m name (containerID ++ ":" ++ name)) "TCP" =
      ((aget m "TCP").orElse fun _ => aget m "tcp")) ∧
    (aget (V2.normalizeOneCheck m name (containerID ++ ":" ++ name)) "UDP" =
      ((aget m "UDP").orElse fun _ => aget m "udp")) ∧
    (aget (V2.normalizeOneCheck m name (containerID ++ ":" ++ name)) "Interval" =
      ((aget m "Interval").orElse fun _ => aget m "interval")) ∧
    (aget (V2.normalizeOneCheck m name (containerID ++ ":" ++ name)) "Timeout" =
      ((aget m "Timeout").orElse fun _ => aget m "timeout")) ∧
    (aget (V2.normalizeOneCheck m name (containerID ++ ":" ++ name)) "AliasNode" =
      ((aget m "AliasNode").orElse fun _ => aget m "alias_node")) ∧
    (aget (V2.normalizeOneCheck m name (containerID ++ ":" ++ name)) "name" = none) ∧
    (aget (V2.normalizeOneCheck m name (containerID ++ ":" ++ name)) "http" = none) ∧
    (aget (V2.normalizeOneCheck m name (containerID ++ ":" ++ name)) "tcp" = none) ∧
    (aget (V2.normalizeOneCheck m name (containerID ++ ":" ++ name)) "udp" = none) ∧
    (aget (V2.normalizeOneCheck m name (containerID ++ ":" ++ name)) "interval" = none) ∧
    (aget (V2.normalizeOneCheck m name (containerID ++ ":" ++ name)) "timeout" = none) ∧
    (aget (V2.normalizeOneCheck m name (containerID ++ ":" ++ name)) "alias_service" = none) ∧
    (aget (V2.normalizeOneCheck m name (containerID ++ ":" ++ name)) "alias_node" = none) ∧
    (aget (V2.normalizeOneCheck m name (containerID ++ ":" ++ name)) "AliasService" =
      match ((aget m "AliasService").orElse fun _ => aget m "alias_service") with
      | some (.str v) =>
        some (.str (if v = "" ∨ v = name ∨ v = "$SERVICE_ID" ∨ v = "${SERVICE_ID}"
          then containerID ++ ":" ++ name else v))
      | x => x) := by
  unfold V2.normalizeOneCheck
  refine ⟨?_, ?_, ?_, ?_, ?_, ?_, ?_, ?_, ?_, ?_, ?_, ?_, ?_, ?_, ?_, ?_⟩
  · rw [aliasFix_get_other _ _ _ (by decide), norm_get_Name]
  · rw [aliasFix_get_other _ _ _ (by decide), norm_get_HTTP]
  · rw [aliasFix_get_other _ _ _ (by decide), norm_get_TCP]
  · rw [aliasFix_get_other _ _ _ (by decide), norm_get_UDP]
  · rw [aliasFix_get_other _ _ _ (by decide), norm_get_Interval]
  · rw [aliasFix_get_other _ _ _ (by decide), norm_get_Timeout]
  · rw [aliasFix_get_other _ _ _ (by decide), norm_get_AliasNode]
  · rw [aliasFix_get_other _ _ _ (by decide), norm_gone_name]
  · rw [aliasFix_get_other _ _ _ (by decide), norm_gone_http]
  · rw [aliasFix_get_other _ _ _ (by decide), norm_gone_tcp]
  · rw [aliasFix_get_other _ _ _ (by decide), norm_gone_udp]
  · rw [aliasFix_get_other _ _ _ (by decide), norm_gone_interval]
  · rw [aliasFix_get_other _ _ _ (by decide), norm_gone_timeout]
  · rw [aliasFix_get_other _ _ _ (by decide), norm_gone_aliasservice]
  · rw [aliasFix_get_other _ _ _ (by decide), norm_gone_aliasnode]
  · rw [aliasFix_get_self, norm_get_AliasService]

/-- C4: for every label of the form consul.service.<suffix> whose value
parses, the definition is rejected — it produces no job, hence no register
call and no state entry — iff its name field is not a string equal to the
non-empty label suffix (absent, non-string, empty, or mismatched); an
accepted definition is assigned id = <container-id>:<name>. -/
theorem C4_name_binding (env : TickEnv) (insp : DockerInspect) (k : String) (svc0 : Svc)
    (hp : env.parseHCL ((aget insp.labels k).getD "") = some svc0) :
    (jobEntry env insp k = none ↔
      ¬ (aget svc0 "name" = some (.str (dropS k 15)) ∧ dropS k 15 ≠ "")) ∧
    ∀ id svc req, jobEntry env insp k = some (id, svc, req) →
      id = insp.id ++ ":" ++ dropS k 15 := by
  cases hv : aget svc0 "name" with
  | none => simp [jobEntry, hp, hv]
  | some v =>
    cases v with
    | str s =>
      by_cases hs : s = ""
      · subst hs
        by_cases hL : dropS k 15 = ""
        · simp [jobEntry, hp, hv, hL]
        · have h2 : ¬ "" = dropS k 15 := fun h => hL h.symm
          simp [jobEntry, hp, hv, hL, h2]
      · by_cases hL : s = dropS k 15
        · have hs2 : ¬ dropS k 15 = "" := hL ▸ hs
          rw [← hL]
          simp [jobEntry, hp, hv, hL, hs2]
        · simp [jobEntry, hp, hv, hs, hL]
    | int i => simp [jobEntry, hp, hv]
    | bool b => simp [jobEntry, hp, hv]
    | null => simp [jobEntry, hp, hv]
    | list l => simp [jobEntry, hp, hv]
    | map mm => simp [jobEntry, hp, hv]

/-- `applySidecarAutoAndProm` only writes the top-level `connect` key. -/
theorem applyProm_get_other (svc : Svc) (n i : String) (cfg : Config) (req : Bool)
    {k : String} (h : k ≠ "connect") :
    aget (applySidecarAutoAndProm svc n i cfg req) k = aget svc k := by
  cases hc : aget svc "connect" with
  | none => simp [applySidecarAutoAndProm, hc]
  | some v =>
    cases v with
    | map connect =>
      cases hs : aget connect "sidecar_service" with
      | none => simp [applySidecarAutoAndProm, hc, hs]
      | some w =>
        cases w with
        | map sc => simp [applySidecarAutoAndProm, hc, hs, aget_aset_of_ne _ _ h]
        | str s => simp [applySidecarAutoAndProm, hc, hs]
        | int x => simp [applySidecarAutoAndProm, hc, hs]
        | bool b => simp [applySidecarAutoAndProm, hc, hs]
        | null => simp [applySidecarAutoAndProm, hc, hs]
        | list l => simp [applySidecarAutoAndProm, hc, hs]
    | str s => simp [applySidecarAutoAndProm, hc]
    | int x => simp [applySidecarAutoAndProm, hc]
    | bool b => simp [applySidecarAutoAndProm, hc]
    | null => simp [applySidecarAutoAndProm, hc]
    | list l => simp [applySidecarAutoAndProm, hc]

/-- `applyAutoTCPCheckOnServiceOrEnvoy` only writes the top-level `checks`
and `check` keys. -/
theorem applyTCP_get_other (svc : Svc) (n : String) {k : String}
    (h1 : k ≠ "checks") (h2 : k ≠ "check") :
    aget (applyAutoTCPCheckOnServiceOrEnvoy svc n) k = aget svc k := by
  unfold applyAutoTCPCheckOnServiceOrEnvoy
  cases ht : tcpTarget svc n with
  | none => rfl
  | some t =>
    repeat' split
    all_goals
      first
        | rfl
        | simp [apply_ite (fun m => aget m k), aget_aset_of_ne _ _ h1,
            aget_adel_of_ne _ h2, aget_aset_of_ne _ _ h2]

/-- C5: for every payload in which neither `address` nor `Address` is set,
the registered payload's `address` is set to `resolveServiceAddress`, which
prefers, in order, the container display name stripped of a leading "/"
(after trimming), else the service name, else the first non-empty IP
address across the inspected networks; the field is left unset only when
all of these are empty. -/
theorem C5_address_resolution (cfg : Config) (insp : DockerInspect)
    (svcName serviceID : String) (req : Bool) (svc0 : Svc)
    (ha : aget svc0 "address" = none) (hA : aget svc0 "Address" = none) :
    (aget (buildPayload cfg insp svcName serviceID req svc0) "address" =
      (if resolveServiceAddress (some insp) svcName ≠ "" then
        some (.str (resolveServiceAddress (some insp) svcName)) else none)) ∧
    resolveServiceAddress (some insp) svcName =
      (if dropSlash (trimS insp.name) ≠ "" then dropSlash (trimS insp.name)
       else if svcName ≠ "" then svcName
       else firstIP insp.networks) := by
  constructor
  · have h1 : aget (aset svc0 "id" (Value.str serviceID)) "address" = none := by
      rw [aget_aset_of_ne _ _ (by decide)]; exact ha
    have h2 : aget (aset svc0 "id" (Value.str serviceID)) "Address" = none := by
      rw [aget_aset_of_ne _ _ (by decide)]; exact hA
    unfold buildPayload
    rw [applyTCP_get_other _ _ (by decide) (by decide),
        applyProm_get_other _ _ _ _ _ (by decide)]
    by_cases hr : resolveServiceAddress (some insp) svcName = ""
    · simp [h1, h2, hr]
    · simp [h1, h2, hr]
  · rfl

/-! ### Prometheus-injection lemmas -/

theorem getEnvoy_aset_other (s : Svc) (v : Value) {k : String} (h : k ≠ "proxy") :
    getEnvoy (aset s k v) = getEnvoy s := by
  unfold getEnvoy
  rw [aget_aset_of_ne _ _ (Ne.symm h)]

theorem getEnvoy_adel_other (s : Svc) {k : String} (h : k ≠ "proxy") :
    getEnvoy (adel s k) = getEnvoy s := by
  unfold getEnvoy
  rw [aget_adel_of_ne _ (Ne.symm h)]

/-- `ensureEnvoyPrometheus` leaves an existing bind address alone and fills
it in otherwise, creating the `proxy` / `proxy.config` mappings when they
are absent or not mappings. -/
theorem getEnvoy_ensureProm (s : Svc) (a : String) :
    getEnvoy (ensureEnvoyPrometheus s a) = some ((getEnvoy s).getD (.str a)) := by
  unfold ensureEnvoyPrometheus getEnvoy
  cases hp : aget s "proxy" with
  | none => simp [aget]
  | some v =>
    cases v with
    | map p =>
      cases hc : aget p "config" with
      | none => simp [aget, hc]
      | some w =>
        cases w with
        | map c =>
          cases hx : aget c "envoy_prometheus_bind_addr" with
          | some x => simp [hp, hc, hx]
          | none => simp [aget, hp, hc, hx]
        | str x => simp [aget, hc]
        | int x => simp [aget, hc]
        | bool x => simp [aget, hc]
        | null => simp [aget, hc]
        | list x => simp [aget, hc]
    | str x => simp [aget, hp]
    | int x => simp [aget, hp]
    | bool x => simp [aget, hp]
    | null => simp [aget, hp]
    | list x => simp [aget, hp]

theorem tpMigrate_get_other (p : Svc) {k : String}
    (h1 : k ≠ "transparent_proxy") (h2 : k ≠ "TransparentProxy") :
    aget (tpMigrate p) k = aget p k := by
  unfold tpMigrate
  split
  · rw [aget_adel_of_ne _ h2, apply_ite (fun m => aget m k), aget_aset_of_ne _ _ h1, ite_self]
  · rfl

theorem tpEnsure_get_other (p : Svc) {k : String} (h1 : k ≠ "transparent_proxy") :
    aget (tpEnsure p) k = aget p k := by
  unfold tpEnsure
  split
  · rfl
  · rw [aget_aset_of_ne _ _ h1]

theorem tpStrip_get_other (p : Svc) {k : String} (h1 : k ≠ "transparent_proxy") :
    aget (tpStrip p) k = aget p k := by
  unfold tpStrip
  split
  · rw [aget_aset_of_ne _ _ h1]
  · rfl

theorem tpFixProxy_get_other (p : Svc) {k : String}
    (h1 : k ≠ "transparent_proxy") (h2 : k ≠ "TransparentProxy") :
    aget (tpFixProxy p) k = aget p k := by
  unfold tpFixProxy
  rw [tpStrip_get_other _ h1, tpEnsure_get_other _ h1, tpMigrate_get_other _ h1 h2]

theorem tpFixConfig_get_envoy (c : Svc) :
    aget (tpFixConfig c) "envoy_prometheus_bind_addr" = aget c "envoy_prometheus_bind_addr" := by
  unfold tpFixConfig
  split <;>
    simp [apply_ite (fun m => aget m "envoy_prometheus_bind_addr"),
      aget_aset_of_ne _ _
        (show ("envoy_prometheus_bind_addr" : String) ≠ "bind_address" by decide)]

/-- `ensureTransparentProxy` never touches the prometheus bind address. -/
theorem getEnvoy_ensureTP (s : Svc) :
    getEnvoy (ensureTransparentProxy s) = getEnvoy s := by
  have shape : ∀ (q c : Svc),
      getEnvoy (aset s "proxy" (.map (aset q "config" (.map c)))) =
        aget c "envoy_prometheus_bind_addr" := by
    intro q c
    unfold getEnvoy
    simp
  unfold ensureTransparentProxy
  rw [shape, tpFixConfig_get_envoy]
  have hfix : ∀ (p : Svc), aget (tpFixProxy p) "config" = aget p "config" :=
    fun p => tpFixProxy_get_other p (by decide) (by decide)
  cases hp : aget s "proxy" with
  | none => simp [getEnvoy, hp, hfix, aget]
  | some v =>
    cases v with
    | map p =>
      rw [hfix]
      cases hc : aget p "config" with
      | none => simp [getEnvoy, hp, hc, aget]
      | some w =>
        cases w with
        | map c => simp [getEnvoy, hp, hc]
        | str x => simp [getEnvoy, hp, hc, aget]
        | int x => simp [getEnvoy, hp, hc, aget]
        | bool x => simp [getEnvoy, hp, hc, aget]
        | null => simp [getEnvoy, hp, hc, aget]
        | list x => simp [getEnvoy, hp, hc, aget]
    | str x => simp [getEnvoy, hp, hfix, aget]
    | int x => simp [getEnvoy, hp, hfix, aget]
    | bool x => simp [getEnvoy, hp, hfix, aget]
    | null => simp [getEnvoy, hp, hfix, aget]
    | list x => simp [getEnvoy, hp, hfix, aget]

theorem getEnvoy_autoExtract (s : Svc) : getEnvoy (autoExtract s).2 = getEnvoy s := by
  unfold autoExtract
  cases h1 : aget s "auto" with
  | some v =>
    cases h2 : aget (adel s "auto") "Auto" with
    | some w =>
      simp only [h1, h2]
      rw [getEnvoy_adel_other _ (show ("Auto" : String) ≠ "proxy" by decide),
          getEnvoy_adel_other _ (show ("auto" : String) ≠ "proxy" by decide)]
    | none =>
      simp only [h1, h2]
      rw [getEnvoy_adel_other _ (show ("auto" : String) ≠ "proxy" by decide)]
  | none =>
    cases h2 : aget s "Auto" with
    | some w =>
      simp only [h1, h2]
      rw [getEnvoy_adel_other _ (show ("Auto" : String) ≠ "proxy" by decide)]
    | none => simp only [h1, h2]

theorem getEnvoy_promStage (s : Svc) (cfg : Config) (req : Bool) :
    getEnvoy (promStage s cfg req) =
      (if (req && (trimS cfg.sidecarPrometheusBindAddr != "") &&
          (validBindAddr cfg.sidecarPrometheusBindAddr).isSome) then
        some ((getEnvoy s).getD (.str cfg.sidecarPrometheusBindAddr))
      else getEnvoy s) := by
  unfold promStage
  by_cases hg : (req && (trimS cfg.sidecarPrometheusBindAddr != "")) = true
  · cases hv : validBindAddr cfg.sidecarPrometheusBindAddr with
    | some hp => simp [hg, hv, getEnvoy_ensureProm]
    | none => simp [hg, hv]
  · simp only [Bool.not_eq_true] at hg
    simp [hg]

theorem C9_helper (svc : Svc) (n i : String) (cfg : Config) (req : Bool)
    (connect sidecar0 : Svc)
    (hc : aget svc "connect" = some (.map connect))
    (hs : aget connect "sidecar_service" = some (.map sidecar0)) :
    getSidecarEnvoy (applySidecarAutoAndProm svc n i cfg req) =
      (if (req && (trimS cfg.sidecarPrometheusBindAddr != "") &&
          (validBindAddr cfg.sidecarPrometheusBindAddr).isSome) then
        some ((getEnvoy sidecar0).getD (.str cfg.sidecarPrometheusBindAddr))
      else getEnvoy sidecar0) := by
  unfold applySidecarAutoAndProm
  simp only [hc, hs]
  simp only [getSidecarEnvoy, aget_aset_self]
  rw [getEnvoy_promStage]
  rw [apply_ite getEnvoy,
      getEnvoy_aset_other _ _ (show ("checks" : String) ≠ "proxy" by decide),
      getEnvoy_adel_other _ (show ("check" : String) ≠ "proxy" by decide), ite_self]
  rw [apply_ite getEnvoy, getEnvoy_ensureTP, ite_self]
  rw [getEnvoy_autoExtract]

theorem validBindAddr_isSome (a : String) :
    (validBindAddr a).isSome =
      (match parseHostPort a with
       | some hp => isValidPort hp.2 && !(isLoopbackHost hp.1) && !(isReservedSidecarPort hp.2)
       | none => false) := by
  unfold validBindAddr
  cases h : parseHostPort a with
  | none => simp
  | some hp =>
    by_cases hg :
        (isValidPort hp.2 && !(isLoopbackHost hp.1) && !(isReservedSidecarPort hp.2)) = true <;>
      simp [hg]

/-- C9: when a sidecar is requested and the engine has a non-blank
prometheus bind address configured, the injection of
connect.sidecar_service.proxy.config.envoy_prometheus_bind_addr is skipped
if the address fails to parse as host:port, the port is outside 1..65535,
the host is loopback, or the port is a reserved sidecar port; otherwise the
field is set iff not already set (the existing value winning), with the
proxy and proxy.config mappings created when absent. -/
theorem C9_prom_injection (svc : Svc) (n i : String) (cfg : Config) (req : Bool)
    (connect sidecar0 : Svc)
    (hc : aget svc "connect" = some (.map connect))
    (hs : aget connect "sidecar_service" = some (.map sidecar0)) :
    getSidecarEnvoy (applySidecarAutoAndProm svc n i cfg req) =
      (if (req && (trimS cfg.sidecarPrometheusBindAddr != "") &&
          (match parseHostPort cfg.sidecarPrometheusBindAddr with
           | some hp =>
             isValidPort hp.2 && !(isLoopbackHost hp.1) && !(isReservedSidecarPort hp.2)
           | none => false)) then
        some ((getEnvoy sidecar0).getD (.str cfg.sidecarPrometheusBindAddr))
      else getEnvoy sidecar0) := by
  rw [C9_helper svc n i cfg req connect sidecar0 hc hs, validBindAddr_isSome]

/-! ### ParseServiceHCL lemmas -/

theorem attrsToMap_ok (l : List (String × Option Value)) :
    exOk (attrsToMap l) = l.all (fun p => p.2.isSome) := by
  induction l with
  | nil => rfl
  | cons p rest ih =>
    obtain ⟨k, v?⟩ := p
    cases v? with
    | none => simp [attrsToMap, exOk]
    | some v =>
      simp only [attrsToMap]
      cases hr : attrsToMap rest with
      | error e =>
        rw [hr] at ih
        simp only [exOk] at ih ⊢
        simp [List.all_cons, ← ih]
      | ok m =>
        rw [hr] at ih
        simp only [exOk] at ih ⊢
        simp [List.all_cons, ← ih]

mutual
theorem hclBodyToMap_ok : ∀ (b : HBody), exOk (hclBodyToMap b) = bodyEvalOk b
  | .mk attrs blocks => by
    unfold hclBodyToMap bodyEvalOk
    cases ha : attrsToMap attrs with
    | error e =>
      have h := attrsToMap_ok attrs
      rw [ha] at h
      simp only [exOk] at h ⊢
      rw [← h]
      simp
    | ok base =>
      have h := attrsToMap_ok attrs
      rw [ha] at h
      simp only [exOk] at h
      rw [← h]
      simp [blocksInto_ok blocks base]
theorem blocksInto_ok : ∀ (bs : List (String × HBody)) (acc : Svc),
    exOk (blocksInto bs acc) = blocksEvalOk bs
  | [], acc => by simp [blocksInto, blocksEvalOk, exOk]
  | (t, b) :: rest, acc => by
    unfold blocksInto blocksEvalOk
    cases hb : hclBodyToMap b with
    | error e =>
      have h := hclBodyToMap_ok b
      rw [hb] at h
      simp only [exOk] at h ⊢
      rw [← h]
      simp
    | ok child =>
      have h := hclBodyToMap_ok b
      rw [hb] at h
      simp only [exOk] at h
      rw [← h]
      simp [blocksInto_ok rest (aset acc t (.map child))]
end

theorem countService_cons_service (b : HBody) (rest : List (String × HBody)) :
    countService (("service", b) :: rest) = countService rest + 1 := by
  simp [countService]

theorem countService_cons_other {t : String} (ht : t ≠ "service") (b : HBody)
    (rest : List (String × HBody)) :
    countService ((t, b) :: rest) = countService rest := by
  simp [countService, ht]

theorem scanService_some (blocks : List (String × HBody)) (b0 : HBody) :
    scanService (some b0) blocks =
      (if countService blocks = 0 then .ok (some b0) else .error ()) := by
  induction blocks with
  | nil => simp [scanService, countService]
  | cons p rest ih =>
    obtain ⟨t, b⟩ := p
    by_cases ht : t = "service"
    · subst ht
      rw [countService_cons_service]
      simp [scanService]
    · rw [countService_cons_other ht]
      simp [scanService, ht, ih]

theorem firstService_none_iff (blocks : List (String × HBody)) :
    firstService blocks = none ↔ countService blocks = 0 := by
  induction blocks with
  | nil => simp [firstService, countService]
  | cons p rest ih =>
    obtain ⟨t, b⟩ := p
    by_cases ht : t = "service"
    · subst ht
      rw [countService_cons_service]
      simp [firstService]
    · rw [countService_cons_other ht]
      simp [firstService, ht, ih]

theorem scanService_spec (blocks : List (String × HBody)) :
    scanService none blocks =
      (if countService blocks = 0 then .ok none
       else if countService blocks = 1 then .ok (firstService blocks)
       else .error ()) := by
  induction blocks with
  | nil => simp [scanService, countService]
  | cons p rest ih =>
    obtain ⟨t, b⟩ := p
    by_cases ht : t = "service"
    · subst ht
      rw [countService_cons_service]
      simp only [scanService, if_true, reduceIte]
      rw [scanService_some]
      by_cases hz : countService rest = 0
      · simp [hz, firstService]
      · simp [hz, firstService]
    · rw [countService_cons_other ht]
      simp only [scanService, ht, if_false]
      rw [ih]
      by_cases hz : countService rest = 0
      · simp [hz, firstService, ht]
      · by_cases ho : countService rest = 1 <;> simp [hz, ho, firstService, ht]

/-- C7 (amended): `ParseServiceHCL` succeeds iff the input is syntactically
valid (the library parse produced a body), it contains exactly one
top-level block of type `service`, and every attribute expression in that
block's tree evaluates without diagnostics; a syntax error, zero or several
`service` blocks, or an attribute evaluation error each yield a parse error
and no mapping. -/
theorem C7_parse_service_hcl (parsed : Option HBody) :
    exOk (ParseServiceHCL parsed) =
      (match parsed with
       | none => false
       | some (.mk _ blocks) =>
         (countService blocks == 1) &&
           (match firstService blocks with
            | some b => bodyEvalOk b
            | none => false)) := by
  cases parsed with
  | none => rfl
  | some body =>
    obtain ⟨attrs, blocks⟩ := body
    simp only [ParseServiceHCL]
    rw [scanService_spec]
    by_cases hz : countService blocks = 0
    · have hf : firstService blocks = none := (firstService_none_iff blocks).mpr hz
      simp [hz, hf, exOk]
    · by_cases ho : countService blocks = 1
      · cases hf : firstService blocks with
        | none =>
          rw [firstService_none_iff] at hf
          omega
        | some b =>
          simp [hz, ho, hf, hclBodyToMap_ok b]
      · simp [hz, ho, exOk]

/-- C7 counterexample: a syntactically valid input with exactly one
top-level `service` block on which `ParseServiceHCL` nevertheless fails
(an attribute evaluation error), refuting the claimed equivalence
"succeeds iff syntactically valid with exactly one service block". -/
theorem C7_counterexample :
    ¬ (exOk (ParseServiceHCL parsedBad) = true ↔
        (parsedBad.isSome = true ∧ countService [("service", badBody)] = 1)) := by
  decide

/-! ### The reconciliation loop: register decision, state, stale sweep -/


theorem insertId_mem (l : List String) (id x : String) :
    x ∈ insertId l id ↔ x ∈ l ∨ x = id := by
  unfold insertId
  split
  · rename_i h
    simp at h
    constructor
    · exact Or.inl
    · rintro (hx | rfl)
      · exact hx
      · exact h
  · simp

theorem insertId_contains_ne (l : List String) {id x : String} (h : x ≠ id) :
    (insertId l id).contains x = l.contains x := by
  unfold insertId
  split
  · rfl
  · rcases hb : l.contains x with _ | _
    · simp at hb ⊢
      exact ⟨fun a => hb a, h⟩
    · simp at hb ⊢
      exact Or.inl hb

theorem stepEntry_processed (env : TickEnv) (ls : LoopState) (e : String × Svc × Bool) :
    (stepEntry env ls e).processed =
      ls.processed ++ [⟨e.1, e.2.1, shouldRegister env ls.st e.1 (env.hash e.2.1),
        shouldRegister env ls.st e.1 (env.hash e.2.1) && env.registerOK e.1⟩] := by
  unfold stepEntry
  by_cases hsr : shouldRegister env ls.st e.1 (env.hash e.2.1) = true
  · by_cases hok : env.registerOK e.1 = true <;> simp [hsr, hok]
  · simp only [Bool.not_eq_true] at hsr
    simp [hsr]

theorem stepEntry_stateAt_ne (env : TickEnv) (ls : LoopState) (e : String × Svc × Bool)
    {id : String} (h : id ≠ e.1) :
    stateAt (stepEntry env ls e).st id = stateAt ls.st id := by
  unfold stepEntry
  by_cases hsr : shouldRegister env ls.st e.1 (env.hash e.2.1) = true
  · by_cases hok : env.registerOK e.1 = true <;>
      simp [hsr, hok, stateAt, insertId_mem, h,
        aget_aset_of_ne _ _ h]
  · simp only [Bool.not_eq_true] at hsr
    simp [hsr, stateAt, insertId_mem, h]

theorem foldl_processed_split (env : TickEnv) :
    ∀ (entries : List (String × Svc × Bool)) (ls : LoopState),
      ∃ t, (entries.foldl (stepEntry env) ls).processed = ls.processed ++ t := by
  intro entries
  induction entries with
  | nil => exact fun ls => ⟨[], by simp⟩
  | cons e rest ih =>
    intro ls
    obtain ⟨t, ht⟩ := ih (stepEntry env ls e)
    refine ⟨⟨e.1, e.2.1, shouldRegister env ls.st e.1 (env.hash e.2.1),
      shouldRegister env ls.st e.1 (env.hash e.2.1) && env.registerOK e.1⟩ :: t, ?_⟩
    simp only [List.foldl_cons, ht, stepEntry_processed]
    simp

theorem shouldRegister_congr (env : TickEnv) {st st' : AgentState} {id : String}
    (hcong : stateAt st id = stateAt st' id) (h : String) :
    shouldRegister env st id h = shouldRegister env st' id h := by
  have h1 : st.services.contains id = st'.services.contains id :=
    congrArg (fun p => p.1) hcong
  have h2 : aget st.payloadHash id = aget st'.payloadHash id :=
    congrArg (fun p => p.2.1) hcong
  have h3 : aget st.lastRegisterAt id = aget st'.lastRegisterAt id :=
    congrArg (fun p => p.2.2) hcong
  unfold shouldRegister refreshElapsed
  rw [h1, h2, h3]

theorem loop_attempted (env : TickEnv) :
    ∀ (entries : List (String × Svc × Bool)) (ls : LoopState) (st0 : AgentState)
      (t : List Entry),
      (entries.foldl (stepEntry env) ls).processed = ls.processed ++ t →
      (∀ id, (∀ ent ∈ ls.processed, Entry.id ent ≠ id) → stateAt ls.st id = stateAt st0 id) →
      (((ls.processed ++ t).map Entry.id).Nodup) →
      ∀ ent ∈ t, ent.attempted = shouldRegister env st0 ent.id (env.hash ent.payload) := by
  intro entries
  induction entries with
  | nil =>
    intro ls st0 t hsplit hH1 hnd ent hent
    simp only [List.foldl_nil] at hsplit
    have ht0 : ls.processed ++ [] = ls.processed ++ t := by simpa using hsplit
    have : ([] : List Entry) = t := List.append_cancel_left ht0
    subst this
    simp at hent
  | cons e rest ih =>
    intro ls st0 t hsplit hH1 hnd ent hent
    simp only [List.foldl_cons] at hsplit
    obtain ⟨t', ht'⟩ := foldl_processed_split env rest (stepEntry env ls e)
    rw [ht', stepEntry_processed, List.append_assoc] at hsplit
    have htt : (⟨e.1, e.2.1, shouldRegister env ls.st e.1 (env.hash e.2.1),
        shouldRegister env ls.st e.1 (env.hash e.2.1) && env.registerOK e.1⟩ :: t' : List Entry)
        = t := by
      have := List.append_cancel_left hsplit
      simpa using this
    rw [← htt] at hnd hent
    rcases List.mem_cons.mp hent with rfl | hent'
    · have hid : ∀ ent' ∈ ls.processed, Entry.id ent' ≠ e.1 := by
        intro ent' hmem heq
        rw [List.map_append] at hnd
        have hdisj := (List.nodup_append.mp hnd).2.2
        exact hdisj (List.mem_map_of_mem Entry.id hmem) (by rw [heq]; simp)
      have hcong := hH1 e.1 hid
      exact shouldRegister_congr env hcong (env.hash e.2.1)
    · refine ih (stepEntry env ls e) st0 t' ht' ?_ ?_ ent hent'
      · intro id hall
        have hne : id ≠ e.1 := by
          intro heq
          exact hall ⟨e.1, e.2.1, shouldRegister env ls.st e.1 (env.hash e.2.1),
            shouldRegister env ls.st e.1 (env.hash e.2.1) && env.registerOK e.1⟩
            (by rw [stepEntry_processed]; simp) heq.symm
        rw [stepEntry_stateAt_ne env ls e hne]
        refine hH1 id ?_
        intro ent' hmem
        exact hall ent' (by rw [stepEntry_processed]; exact List.mem_append_left _ hmem)
      · rw [stepEntry_processed, List.append_assoc]
        exact hnd

theorem shouldRegister_iff (env : TickEnv) (st : AgentState) (id h : String) :
    shouldRegister env st id h = true ↔
      (¬ st.services.contains id = true ∨ aget st.payloadHash id ≠ some h ∨
       refreshElapsed st.lastRegisterAt env.now id = true) := by
  unfold shouldRegister
  by_cases h1 : st.services.contains id = true
  · by_cases h2 : aget st.payloadHash id = some h
    · simp [h1, h2]
    · simp [h1, h2]
  · simp [h1]

/-- C1: over a tick whose derived identities are distinct, a (re)register
call is issued for an identity iff it is not yet in local state, or the
fingerprint of its serialized normalized payload differs from the stored
fingerprint (a missing stored fingerprint counting as a difference), or the
refresh interval (5 minutes) has elapsed since the last successful
register; otherwise the register is skipped. -/
theorem C1_register_iff (env : TickEnv) (st0 : AgentState)
    (hnd : (((runTick env st0).processed).map Entry.id).Nodup) :
    ∀ ent ∈ (runTick env st0).processed,
      (ent.attempted = true ↔
        (¬ st0.services.contains ent.id = true
          ∨ aget st0.payloadHash ent.id ≠ some (env.hash ent.payload)
          ∨ refreshElapsed st0.lastRegisterAt env.now ent.id = true)) := by
  intro ent hent
  have hproc : (runTick env st0).processed =
      ((tickEntries env).foldl (stepEntry env) ⟨st0, [], []⟩).processed := rfl
  obtain ⟨t, ht⟩ := foldl_processed_split env (tickEntries env) ⟨st0, [], []⟩
  have htt : ((tickEntries env).foldl (stepEntry env) ⟨st0, [], []⟩).processed = t := by
    simpa using ht
  have hmain := loop_attempted env (tickEntries env) ⟨st0, [], []⟩ st0 t
    (by simpa using ht) (fun id _ => rfl)
    (by rw [hproc, htt] at hnd; simpa using hnd)
    ent (by rw [hproc, htt] at hent; exact hent)
  rw [hmain, shouldRegister_iff]

theorem stepEntry_services_super (env : TickEnv) (ls : LoopState) (e : String × Svc × Bool)
    {x : String} (hx : x ∈ ls.st.services) :
    x ∈ (stepEntry env ls e).st.services := by
  unfold stepEntry
  by_cases hsr : shouldRegister env ls.st e.1 (env.hash e.2.1) = true
  · by_cases hok : env.registerOK e.1 = true <;>
      simp [hsr, hok, insertId_mem, hx]
  · simp only [Bool.not_eq_true] at hsr
    simp [hsr, insertId_mem, hx]

theorem loop_services_super (env : TickEnv) :
    ∀ (entries : List (String × Svc × Bool)) (ls : LoopState) {x : String},
      x ∈ ls.st.services → x ∈ ((entries.foldl (stepEntry env) ls).st.services) := by
  intro entries
  induction entries with
  | nil => exact fun ls _ hx => hx
  | cons e rest ih =>
    intro ls x hx
    exact ih (stepEntry env ls e) (stepEntry_services_super env ls e hx)

theorem shouldRegister_false_contains (env : TickEnv) (st : AgentState) (id h : String)
    (hf : shouldRegister env st id h = false) : st.services.contains id = true := by
  unfold shouldRegister at hf
  by_cases h1 : st.services.contains id = true
  · exact h1
  · simp [h1] at hf
    simpa using hf.1

theorem stepEntry_services_cases (env : TickEnv) (ls : LoopState) (e : String × Svc × Bool)
    {x : String} (hx : x ∈ (stepEntry env ls e).st.services) :
    x ∈ ls.st.services ∨
      (x = e.1 ∧ shouldRegister env ls.st e.1 (env.hash e.2.1) = true ∧
        env.registerOK e.1 = true) := by
  unfold stepEntry at hx
  by_cases hsr : shouldRegister env ls.st e.1 (env.hash e.2.1) = true
  · by_cases hok : env.registerOK e.1 = true
    · simp only [hsr, hok, if_true] at hx
      rcases (insertId_mem _ _ _).mp hx with hm | rfl
      · exact Or.inl hm
      · exact Or.inr ⟨rfl, hsr, hok⟩
    · simp only [Bool.not_eq_true] at hok
      simp only [hsr, hok, if_true, Bool.false_eq_true, if_false] at hx
      exact Or.inl hx
  · simp only [Bool.not_eq_true] at hsr
    simp only [hsr, Bool.false_eq_true, if_false] at hx
    rcases (insertId_mem _ _ _).mp hx with hm | rfl
    · exact Or.inl hm
    · exact Or.inl (by
        have := shouldRegister_false_contains env ls.st e.1 (env.hash e.2.1) hsr
        simpa using this)

theorem loop_services_inv (env : TickEnv) (s0 : List String) :
    ∀ (entries : List (String × Svc × Bool)) (ls : LoopState),
      (∀ x ∈ ls.st.services, x ∈ s0 ∨
        x ∈ ((ls.processed.filter (fun e => e.succeeded)).map Entry.id)) →
      ∀ x ∈ ((entries.foldl (stepEntry env) ls).st.services),
        x ∈ s0 ∨
        x ∈ ((((entries.foldl (stepEntry env) ls).processed.filter
          (fun e => e.succeeded)).map Entry.id)) := by
  intro entries
  induction entries with
  | nil => exact fun ls h => h
  | cons e rest ih =>
    intro ls hinv
    refine ih (stepEntry env ls e) ?_
    intro x hx
    rcases stepEntry_services_cases env ls e hx with hm | ⟨rfl, hsr, hok⟩
    · rcases hinv x hm with h0 | hreg
      · exact Or.inl h0
      · refine Or.inr ?_
        rw [stepEntry_processed, List.filter_append, List.map_append]
        exact List.mem_append_left _ hreg
    · refine Or.inr ?_
      rw [stepEntry_processed, List.filter_append, List.map_append]
      refine List.mem_append_right _ ?_
      simp [hsr, hok]

/-- C3: an identity that is in local state at the end of a tick without
having been in state at its start got there through a successful
RegisterService call during the tick; a failed or skipped registration
never adds an identity to state. -/
theorem C3_state_only_on_success (env : TickEnv) (st0 : AgentState) (id : String)
    (hmem : id ∈ (runTick env st0).finalState.services)
    (hnew : id ∉ st0.services) :
    id ∈ (runTick env st0).regOK := by
  have hloop : id ∈ ((tickEntries env).foldl (stepEntry env) ⟨st0, [], []⟩).st.services := by
    have : (runTick env st0).finalState.services =
        (((tickEntries env).foldl (stepEntry env) ⟨st0, [], []⟩).st.services.filter
          (fun x => (((tickEntries env).foldl (stepEntry env)
            ⟨st0, [], []⟩).found.contains x))) := rfl
    rw [this] at hmem
    exact (List.mem_filter.mp hmem).1
  rcases loop_services_inv env st0.services (tickEntries env) ⟨st0, [], []⟩
      (fun x hx => Or.inl hx) id hloop with h0 | hreg
  · exact absurd h0 hnew
  · exact hreg

/-- C2 (amended): every identity present in local state but not seen
during a tick is deregistered best-effort and removed from local state
unconditionally in that same tick, regardless of the outcome of the
deregister call. -/
theorem C2_stale_removed (env : TickEnv) (st0 : AgentState) (id : String)
    (hin : id ∈ st0.services)
    (hnot : id ∉ (runTick env st0).found) :
    id ∈ (runTick env st0).deregisters ∧ id ∉ (runTick env st0).finalState.services := by
  have hsup : id ∈ ((tickEntries env).foldl (stepEntry env) ⟨st0, [], []⟩).st.services :=
    loop_services_super env (tickEntries env) ⟨st0, [], []⟩ hin
  have hfound : (runTick env st0).found =
      ((tickEntries env).foldl (stepEntry env) ⟨st0, [], []⟩).found := rfl
  rw [hfound] at hnot
  constructor
  · have hd : (runTick env st0).deregisters =
        ((tickEntries env).foldl (stepEntry env) ⟨st0, [], []⟩).st.services.filter
          (fun x => !(((tickEntries env).foldl (stepEntry env)
            ⟨st0, [], []⟩).found.contains x)) := rfl
    rw [hd, List.mem_filter]
    refine ⟨hsup, ?_⟩
    simp [hnot]
  · intro hmem
    have hf : (runTick env st0).finalState.services =
        ((tickEntries env).foldl (stepEntry env) ⟨st0, [], []⟩).st.services.filter
          (fun x => (((tickEntries env).foldl (stepEntry env)
            ⟨st0, [], []⟩).found.contains x)) := rfl
    rw [hf, List.mem_filter] at hmem
    exact hnot (by simpa using hmem.2)


/-- C2 counterexample: with an environment whose deregister calls all fail,
a stale identity is still attempted for deregistration and nevertheless
removed from local state — the delete is unconditional, so a failed
deregistration is not retried on the next tick. -/
theorem C2_counterexample :
    "old:svc" ∈ (runTick envC2 stC2).deregisters ∧
    envC2.deregisterOK "old:svc" = false ∧
    "old:svc" ∉ (runTick envC2 stC2).finalState.services := by
  refine ⟨by decide, rfl, by decide⟩

theorem C2_stale_removed_witness :
    "old:svc" ∈ stC2.services ∧
    "old:svc" ∉ (runTick envC2 stC2).found ∧
    ("old:svc" ∈ (runTick envC2 stC2).deregisters ∧
     "old:svc" ∉ (runTick envC2 stC2).finalState.services) :=
  ⟨by decide, by decide,
   C2_stale_removed envC2 stC2 "old:svc" (by decide) (by decide)⟩

theorem C1_register_iff_witness :
    (((runTick envW stW).processed).map Entry.id).Nodup ∧
    (entW.attempted = true ↔
      (¬ stW.services.contains entW.id = true
        ∨ aget stW.payloadHash entW.id ≠ some (envW.hash entW.payload)
        ∨ refreshElapsed stW.lastRegisterAt envW.now entW.id = true)) :=
  ⟨by decide, C1_register_iff envW stW (by decide) entW (List.Mem.head _)⟩

theorem C3_witness :
    "abc123:api" ∈ (runTick envW stW).finalState.services ∧
    "abc123:api" ∉ stW.services ∧
    "abc123:api" ∈ (runTick envW stW).regOK :=
  ⟨by decide, by decide,
   C3_state_only_on_success envW stW "abc123:api" (by decide) (by decide)⟩

/-! ### The earlier generation: failed registers are swept (C10) -/

theorem v2_stepEntry_found_cases (env : TickEnv) (ls : V2.LoopStateV) (e : String × Svc)
    {x : String} (hx : x ∈ (V2.stepEntry env ls e).found) :
    x ∈ ls.found ∨ env.registerOK x = true := by
  unfold V2.stepEntry at hx
  by_cases hok : env.registerOK e.1 = true
  · simp only [hok, if_true] at hx
    rcases (insertId_mem _ _ _).mp hx with hm | rfl
    · exact Or.inl hm
    · exact Or.inr hok
  · simp only [Bool.not_eq_true] at hok
    simp only [hok, Bool.false_eq_true, if_false] at hx
    exact Or.inl hx

theorem v2_loop_found_cases (env : TickEnv) :
    ∀ (entries : List (String × Svc)) (ls : V2.LoopStateV) {x : String},
      x ∈ (entries.foldl (V2.stepEntry env) ls).found →
      x ∈ ls.found ∨ env.registerOK x = true := by
  intro entries
  induction entries with
  | nil => exact fun ls _ hx => Or.inl hx
  | cons e rest ih =>
    intro ls x hx
    rcases ih (V2.stepEntry env ls e) hx with hm | hok
    · exact v2_stepEntry_found_cases env ls e hm
    · exact Or.inr hok

theorem v2_stepEntry_services_super (env : TickEnv) (ls : V2.LoopStateV) (e : String × Svc)
    {x : String} (hx : x ∈ ls.services) :
    x ∈ (V2.stepEntry env ls e).services := by
  unfold V2.stepEntry
  by_cases hok : env.registerOK e.1 = true
  · simp [hok, insertId_mem, hx]
  · simp only [Bool.not_eq_true] at hok
    simp [hok, hx]

theorem v2_loop_services_super (env : TickEnv) :
    ∀ (entries : List (String × Svc)) (ls : V2.LoopStateV) {x : String},
      x ∈ ls.services → x ∈ (entries.foldl (V2.stepEntry env) ls).services := by
  intro entries
  induction entries with
  | nil => exact fun ls _ hx => hx
  | cons e rest ih => exact fun ls x hx => ih _ (v2_stepEntry_services_super env ls e hx)

/-- C10: in the earlier agent generation, an identity that is in local
state at the start of a tick and whose container and label are still
observed, but whose RegisterService call fails, is not marked as seen, is
deregistered from the registry at the end of that same tick, and is
deleted from local state. -/
theorem C10_failed_register_swept (env : TickEnv) (s0 : List String) (id : String)
    (hin : id ∈ s0)
    (hobs : id ∈ (V2.tickEntries env).map Prod.fst)
    (hfail : env.registerOK id = false) :
    id ∉ (V2.runTick env s0).found ∧
    id ∈ (V2.runTick env s0).deregisters ∧
    id ∉ (V2.runTick env s0).finalServices := by
  have hnf : id ∉ ((V2.tickEntries env).foldl (V2.stepEntry env) ⟨s0, [], []⟩).found := by
    intro hmem
    rcases v2_loop_found_cases env (V2.tickEntries env) ⟨s0, [], []⟩ hmem with h0 | hok
    · simp at h0
    · rw [hfail] at hok
      exact Bool.false_ne_true hok
  have hsup : id ∈ ((V2.tickEntries env).foldl (V2.stepEntry env) ⟨s0, [], []⟩).services :=
    v2_loop_services_super env (V2.tickEntries env) ⟨s0, [], []⟩ hin
  refine ⟨hnf, ?_, ?_⟩
  · have hd : (V2.runTick env s0).deregisters =
        ((V2.tickEntries env).foldl (V2.stepEntry env) ⟨s0, [], []⟩).services.filter
          (fun x => !(((V2.tickEntries env).foldl (V2.stepEntry env)
            ⟨s0, [], []⟩).found.contains x)) := rfl
    rw [hd, List.mem_filter]
    refine ⟨hsup, ?_⟩
    simp [hnf]
  · intro hmem
    have hf : (V2.runTick env s0).finalServices =
        ((V2.tickEntries env).foldl (V2.stepEntry env) ⟨s0, [], []⟩).services.filter
          (fun x => (((V2.tickEntries env).foldl (V2.stepEntry env)
            ⟨s0, [], []⟩).found.contains x)) := rfl
    rw [hf, List.mem_filter] at hmem
    exact hnf (by simpa using hmem.2)

theorem C10_witness :
    "abc123:api" ∈ ["abc123:api"] ∧
    "abc123:api" ∈ (V2.tickEntries envF).map Prod.fst ∧
    envF.registerOK "abc123:api" = false ∧
    ("abc123:api" ∉ (V2.runTick envF ["abc123:api"]).found ∧
     "abc123:api" ∈ (V2.runTick envF ["abc123:api"]).deregisters ∧
     "abc123:api" ∉ (V2.runTick envF ["abc123:api"]).finalServices) :=
  ⟨by decide, by decide, rfl,
   C10_failed_register_swept envF ["abc123:api"] "abc123:api" (by decide) (by decide) rfl⟩

/-! ### Witnesses for the hypothesis-bearing payload theorems -/

theorem C4_name_binding_witness :
    envW.parseHCL ((aget inspW.labels "consul.service.api").getD "") = some svcW ∧
    (jobEntry envW inspW "consul.service.api" = none ↔
      ¬ (aget svcW "name" = some (.str (dropS "consul.service.api" 15)) ∧
         dropS "consul.service.api" 15 ≠ "")) :=
  ⟨rfl, (C4_name_binding envW inspW "consul.service.api" svcW rfl).1⟩

theorem C5_address_resolution_witness :
    aget svcW "address" = none ∧ aget svcW "Address" = none ∧
    aget (buildPayload cfgW inspW "api" "abc123:api" false svcW) "address" =
      (if resolveServiceAddress (some inspW) "api" ≠ "" then
        some (.str (resolveServiceAddress (some inspW) "api")) else none) :=
  ⟨rfl, rfl, (C5_address_resolution cfgW inspW "api" "abc123:api" false svcW rfl rfl).1⟩

theorem C9_prom_injection_witness :
    aget svcP "connect" = some (.map [("sidecar_service", Value.map [])]) ∧
    getSidecarEnvoy (applySidecarAutoAndProm svcP "api" "abc123:api" cfgP true) =
      (if (true && (trimS cfgP.sidecarPrometheusBindAddr != "") &&
          (match parseHostPort cfgP.sidecarPrometheusBindAddr with
           | some hp =>
             isValidPort hp.2 && !(isLoopbackHost hp.1) && !(isReservedSidecarPort hp.2)
           | none => false)) then
        some ((getEnvoy ([] : Svc)).getD (.str cfgP.sidecarPrometheusBindAddr))
      else getEnvoy ([] : Svc)) :=
  ⟨rfl, C9_prom_injection svcP "api" "abc123:api" cfgP true
    [("sidecar_service", Value.map [])] [] rfl rfl⟩

/-! ### Idempotence of the earlier generation normalization (C8) -/

theorem not_bool_of_isBoolAt_false {s : Svc} {k : String} (h : isBoolAt s k = false) :
    ∀ b, aget s k ≠ some (Value.bool b) := by
  intro b hb
  unfold isBoolAt at h
  rw [hb] at h
  simp at h

theorem isBoolAt_congr {s s' : Svc} {k : String} (h : aget s k = aget s' k) :
    isBoolAt s k = isBoolAt s' k := by
  unfold isBoolAt
  rw [h]

theorem aliasFix_idem (m : Svc) (K n i : String) :
    aliasFix (aliasFix m K n i) K n i = aliasFix m K n i := by
  cases h : aget m K with
  | none => simp [aliasFix, h]
  | some v =>
    cases v with
    | str s =>
      by_cases hc : s = "" ∨ s = n ∨ s = "$SERVICE_ID" ∨ s = "${SERVICE_ID}"
      · simp only [aliasFix, h, if_pos hc, aget_aset_self]
        by_cases hc2 : i = "" ∨ i = n ∨ i = "$SERVICE_ID" ∨ i = "${SERVICE_ID}"
        · simp only [if_pos hc2]
          exact aset_eq_of_aget _ (aget_aset_self m K (Value.str i))
        · simp only [if_neg hc2]
      · simp [aliasFix, h, hc]
    | int a => simp [aliasFix, h]
    | bool a => simp [aliasFix, h]
    | null => simp [aliasFix, h]
    | list l => simp [aliasFix, h]
    | map mm => simp [aliasFix, h]

theorem normKeys_fixed (m : Svc)
    (h1 : aget m "name" = none) (h2 : aget m "http" = none) (h3 : aget m "tcp" = none)
    (h4 : aget m "udp" = none) (h5 : aget m "interval" = none) (h6 : aget m "timeout" = none)
    (h7 : aget m "alias_service" = none) (h8 : aget m "alias_node" = none) :
    normalizeCheckKeys m = m := by
  show rename (rename (rename (rename (rename (rename (rename (rename m "name" "Name")
    "http" "HTTP") "tcp" "TCP") "udp" "UDP") "interval" "Interval") "timeout" "Timeout")
    "alias_service" "AliasService") "alias_node" "AliasNode" = m
  rw [rename_fixed m "Name" h1, rename_fixed m "HTTP" h2, rename_fixed m "TCP" h3,
      rename_fixed m "UDP" h4, rename_fixed m "Interval" h5, rename_fixed m "Timeout" h6,
      rename_fixed m "AliasService" h7, rename_fixed m "AliasNode" h8]

theorem noc_idem (m : Svc) (n i : String) :
    V2.normalizeOneCheck (V2.normalizeOneCheck m n i) n i = V2.normalizeOneCheck m n i := by
  unfold V2.normalizeOneCheck
  rw [normKeys_fixed (aliasFix (normalizeCheckKeys m) "AliasService" n i)
      (by rw [aliasFix_get_other _ n i (show ("name" : String) ≠ "AliasService" by decide)]
          exact norm_gone_name m)
      (by rw [aliasFix_get_other _ n i (show ("http" : String) ≠ "AliasService" by decide)]
          exact norm_gone_http m)
      (by rw [aliasFix_get_other _ n i (show ("tcp" : String) ≠ "AliasService" by decide)]
          exact norm_gone_tcp m)
      (by rw [aliasFix_get_other _ n i (show ("udp" : String) ≠ "AliasService" by decide)]
          exact norm_gone_udp m)
      (by rw [aliasFix_get_other _ n i (show ("interval" : String) ≠ "AliasService" by decide)]
          exact norm_gone_interval m)
      (by rw [aliasFix_get_other _ n i (show ("timeout" : String) ≠ "AliasService" by decide)]
          exact norm_gone_timeout m)
      (by rw [aliasFix_get_other _ n i
            (show ("alias_service" : String) ≠ "AliasService" by decide)]
          exact norm_gone_aliasservice m)
      (by rw [aliasFix_get_other _ n i
            (show ("alias_node" : String) ≠ "AliasService" by decide)]
          exact norm_gone_aliasnode m)]
  exact aliasFix_idem _ _ _ _

theorem nocVal_idem (n i : String) (v : Value) :
    V2.normalizeOneCheckVal n i (V2.normalizeOneCheckVal n i v) =
      V2.normalizeOneCheckVal n i v := by
  cases v with
  | map m => simp [V2.normalizeOneCheckVal, noc_idem]
  | str s => rfl
  | int a => rfl
  | bool b => rfl
  | null => rfl
  | list l => rfl

theorem checksPass_get_other (s : Svc) (n i : String) {k : String} (h : k ≠ "checks") :
    aget (V2.checksPass s n i) k = aget s k := by
  unfold V2.checksPass
  cases hv : aget s "checks" with
  | none => rfl
  | some v =>
    cases v with
    | list raw => exact aget_aset_of_ne _ _ h
    | str a => rfl
    | int a => rfl
    | bool a => rfl
    | null => rfl
    | map mm => rfl

theorem checkPass_get_other (s : Svc) (n i : String) {k : String} (h : k ≠ "check") :
    aget (V2.checkPass s n i) k = aget s k := by
  unfold V2.checkPass
  cases hv : aget s "check" with
  | none => rfl
  | some v =>
    cases v with
    | map one => exact aget_aset_of_ne _ _ h
    | str a => rfl
    | int a => rfl
    | bool a => rfl
    | null => rfl
    | list l => rfl

theorem nsc_get_other (s : Svc) (n i : String) {k : String}
    (h1 : k ≠ "checks") (h2 : k ≠ "check") :
    aget (V2.normalizeSidecarChecks s n i) k = aget s k := by
  unfold V2.normalizeSidecarChecks
  rw [checkPass_get_other _ n i h2, checksPass_get_other _ n i h1]

theorem checksPass_fixed (s : Svc) (n i : String)
    (hcs : ∀ raw, aget s "checks" = some (Value.list raw) →
      raw.map (V2.normalizeOneCheckVal n i) = raw) :
    V2.checksPass s n i = s := by
  unfold V2.checksPass
  cases hv : aget s "checks" with
  | none => rfl
  | some v =>
    cases v with
    | list raw =>
      show aset s "checks" (Value.list (raw.map (V2.normalizeOneCheckVal n i))) = s
      rw [hcs raw hv]
      exact aset_eq_of_aget _ hv
    | str a => rfl
    | int a => rfl
    | bool a => rfl
    | null => rfl
    | map mm => rfl

theorem checkPass_fixed (s : Svc) (n i : String)
    (hck : ∀ one, aget s "check" = some (Value.map one) →
      V2.normalizeOneCheck one n i = one) :
    V2.checkPass s n i = s := by
  unfold V2.checkPass
  cases hv : aget s "check" with
  | none => rfl
  | some v =>
    cases v with
    | map one =>
      show aset s "check" (Value.map (V2.normalizeOneCheck one n i)) = s
      rw [hck one hv]
      exact aset_eq_of_aget _ hv
    | str a => rfl
    | int a => rfl
    | bool a => rfl
    | null => rfl
    | list l => rfl

theorem checksPass_post (s : Svc) (n i : String) :
    ∀ raw, aget (V2.checksPass s n i) "checks" = some (Value.list raw) →
      raw.map (V2.normalizeOneCheckVal n i) = raw := by
  intro raw hget
  unfold V2.checksPass at hget
  cases hv : aget s "checks" with
  | none =>
    rw [hv] at hget
    rw [hv] at hget
    exact absurd hget (by simp)
  | some v =>
    cases v with
    | list raw0 =>
      rw [hv, aget_aset_self] at hget
      injection hget with hg
      injection hg with hg2
      rw [← hg2, List.map_map]
      exact List.map_congr_left (fun x _ => by
        show V2.normalizeOneCheckVal n i (V2.normalizeOneCheckVal n i x) = _
        exact nocVal_idem n i x)
    | str a => rw [hv] at hget; rw [hv] at hget; simp at hget
    | int a => rw [hv] at hget; rw [hv] at hget; simp at hget
    | bool a => rw [hv] at hget; rw [hv] at hget; simp at hget
    | null => rw [hv] at hget; rw [hv] at hget; simp at hget
    | map mm => rw [hv] at hget; rw [hv] at hget; simp at hget

theorem checkPass_post (s : Svc) (n i : String) :
    ∀ one, aget (V2.checkPass s n i) "check" = some (Value.map one) →
      V2.normalizeOneCheck one n i = one := by
  intro one hget
  unfold V2.checkPass at hget
  cases hv : aget s "check" with
  | none =>
    rw [hv] at hget
    rw [hv] at hget
    exact absurd hget (by simp)
  | some v =>
    cases v with
    | map one0 =>
      rw [hv, aget_aset_self] at hget
      injection hget with hg
      injection hg with hg2
      rw [← hg2]
      exact noc_idem one0 n i
    | str a => rw [hv] at hget; rw [hv] at hget; simp at hget
    | int a => rw [hv] at hget; rw [hv] at hget; simp at hget
    | bool a => rw [hv] at hget; rw [hv] at hget; simp at hget
    | null => rw [hv] at hget; rw [hv] at hget; simp at hget
    | list l => rw [hv] at hget; rw [hv] at hget; simp at hget

theorem nsc_post_checks (s : Svc) (n i : String) :
    ∀ raw, aget (V2.normalizeSidecarChecks s n i) "checks" = some (Value.list raw) →
      raw.map (V2.normalizeOneCheckVal n i) = raw := by
  intro raw hget
  unfold V2.normalizeSidecarChecks at hget
  rw [checkPass_get_other _ n i (show ("checks" : String) ≠ "check" by decide)] at hget
  exact checksPass_post s n i raw hget

theorem nsc_post_check (s : Svc) (n i : String) :
    ∀ one, aget (V2.normalizeSidecarChecks s n i) "check" = some (Value.map one) →
      V2.normalizeOneCheck one n i = one := by
  intro one hget
  unfold V2.normalizeSidecarChecks at hget
  exact checkPass_post (V2.checksPass s n i) n i one hget

theorem nsc_fixed (s : Svc) (n i : String)
    (hcs : ∀ raw, aget s "checks" = some (Value.list raw) →
      raw.map (V2.normalizeOneCheckVal n i) = raw)
    (hck : ∀ one, aget s "check" = some (Value.map one) →
      V2.normalizeOneCheck one n i = one) :
    V2.normalizeSidecarChecks s n i = s := by
  unfold V2.normalizeSidecarChecks
  rw [checksPass_fixed s n i hcs, checkPass_fixed s n i hck]

theorem nsc_idem (s : Svc) (n i : String) :
    V2.normalizeSidecarChecks (V2.normalizeSidecarChecks s n i) n i =
      V2.normalizeSidecarChecks s n i :=
  nsc_fixed _ n i (nsc_post_checks s n i) (nsc_post_check s n i)

theorem eep_get_other (s : Svc) (a : String) {k : String} (h : k ≠ "proxy") :
    aget (ensureEnvoyPrometheus s a) k = aget s k := by
  cases hp : aget s "proxy" with
  | none => simp [ensureEnvoyPrometheus, hp, aget_aset_of_ne _ _ h]
  | some v =>
    cases v with
    | map p =>
      cases hc : aget p "config" with
      | none => simp [ensureEnvoyPrometheus, hp, hc, aget_aset_of_ne _ _ h]
      | some w =>
        cases w with
        | map c =>
          by_cases hb : (aget c "envoy_prometheus_bind_addr").isSome
          · simp [ensureEnvoyPrometheus, hp, hc, hb]
          · simp [ensureEnvoyPrometheus, hp, hc, hb, aget_aset_of_ne _ _ h]
        | str b => simp [ensureEnvoyPrometheus, hp, hc, aget_aset_of_ne _ _ h]
        | int b => simp [ensureEnvoyPrometheus, hp, hc, aget_aset_of_ne _ _ h]
        | bool b => simp [ensureEnvoyPrometheus, hp, hc, aget_aset_of_ne _ _ h]
        | null => simp [ensureEnvoyPrometheus, hp, hc, aget_aset_of_ne _ _ h]
        | list b => simp [ensureEnvoyPrometheus, hp, hc, aget_aset_of_ne _ _ h]
    | str b => simp [ensureEnvoyPrometheus, hp, aget_aset_of_ne _ _ h]
    | int b => simp [ensureEnvoyPrometheus, hp, aget_aset_of_ne _ _ h]
    | bool b => simp [ensureEnvoyPrometheus, hp, aget_aset_of_ne _ _ h]
    | null => simp [ensureEnvoyPrometheus, hp, aget_aset_of_ne _ _ h]
    | list b => simp [ensureEnvoyPrometheus, hp, aget_aset_of_ne _ _ h]

theorem eep_fixed_of (s : Svc) (a : String)
    (h : ∃ p c, aget s "proxy" = some (Value.map p) ∧ aget p "config" = some (Value.map c) ∧
      (aget c "envoy_prometheus_bind_addr").isSome = true) :
    ensureEnvoyPrometheus s a = s := by
  obtain ⟨p, c, hp, hc, hb⟩ := h
  simp [ensureEnvoyPrometheus, hp, hc, hb]

theorem eep_sets (s : Svc) (a : String) :
    ∃ p c, aget (ensureEnvoyPrometheus s a) "proxy" = some (Value.map p) ∧
      aget p "config" = some (Value.map c) ∧
      (aget c "envoy_prometheus_bind_addr").isSome = true := by
  cases hp : aget s "proxy" with
  | none =>
    exact ⟨[("config", Value.map [("envoy_prometheus_bind_addr", Value.str a)])],
      [("envoy_prometheus_bind_addr", Value.str a)],
      by simp [ensureEnvoyPrometheus, hp], rfl, rfl⟩
  | some v =>
    cases v with
    | map p =>
      cases hc : aget p "config" with
      | none =>
        exact ⟨aset p "config" (Value.map [("envoy_prometheus_bind_addr", Value.str a)]),
          [("envoy_prometheus_bind_addr", Value.str a)],
          by simp [ensureEnvoyPrometheus, hp, hc], aget_aset_self _ _ _, rfl⟩
      | some w =>
        cases w with
        | map c =>
          by_cases hb : (aget c "envoy_prometheus_bind_addr").isSome
          · refine ⟨p, c, ?_, hc, hb⟩
            rw [show ensureEnvoyPrometheus s a = s from by
              simp [ensureEnvoyPrometheus, hp, hc, hb]]
            exact hp
          · refine ⟨aset p "config" (Value.map (aset c "envoy_prometheus_bind_addr" (Value.str a))),
              aset c "envoy_prometheus_bind_addr" (Value.str a),
              by simp [ensureEnvoyPrometheus, hp, hc, hb], aget_aset_self _ _ _, ?_⟩
            rw [aget_aset_self]
            rfl
        | str b =>
          exact ⟨aset p "config" (Value.map [("envoy_prometheus_bind_addr", Value.str a)]),
            [("envoy_prometheus_bind_addr", Value.str a)],
            by simp [ensureEnvoyPrometheus, hp, hc], aget_aset_self _ _ _, rfl⟩
        | int b =>
          exact ⟨aset p "config" (Value.map [("envoy_prometheus_bind_addr", Value.str a)]),
            [("envoy_prometheus_bind_addr", Value.str a)],
            by simp [ensureEnvoyPrometheus, hp, hc], aget_aset_self _ _ _, rfl⟩
        | bool b =>
          exact ⟨aset p "config" (Value.map [("envoy_prometheus_bind_addr", Value.str a)]),
            [("envoy_prometheus_bind_addr", Value.str a)],
            by simp [ensureEnvoyPrometheus, hp, hc], aget_aset_self _ _ _, rfl⟩
        | null =>
          exact ⟨aset p "config" (Value.map [("envoy_prometheus_bind_addr", Value.str a)]),
            [("envoy_prometheus_bind_addr", Value.str a)],
            by simp [ensureEnvoyPrometheus, hp, hc], aget_aset_self _ _ _, rfl⟩
        | list b =>
          exact ⟨aset p "config" (Value.map [("envoy_prometheus_bind_addr", Value.str a)]),
            [("envoy_prometheus_bind_addr", Value.str a)],
            by simp [ensureEnvoyPrometheus, hp, hc], aget_aset_self _ _ _, rfl⟩
    | str b =>
      exact ⟨[("config", Value.map [("envoy_prometheus_bind_addr", Value.str a)])],
        [("envoy_prometheus_bind_addr", Value.str a)],
        by simp [ensureEnvoyPrometheus, hp], rfl, rfl⟩
    | int b =>
      exact ⟨[("config", Value.map [("envoy_prometheus_bind_addr", Value.str a)])],
        [("envoy_prometheus_bind_addr", Value.str a)],
        by simp [ensureEnvoyPrometheus, hp], rfl, rfl⟩
    | bool b =>
      exact ⟨[("config", Value.map [("envoy_prometheus_bind_addr", Value.str a)])],
        [("envoy_prometheus_bind_addr", Value.str a)],
        by simp [ensureEnvoyPrometheus, hp], rfl, rfl⟩
    | null =>
      exact ⟨[("config", Value.map [("envoy_prometheus_bind_addr", Value.str a)])],
        [("envoy_prometheus_bind_addr", Value.str a)],
        by simp [ensureEnvoyPrometheus, hp], rfl, rfl⟩
    | list b =>
      exact ⟨[("config", Value.map [("envoy_prometheus_bind_addr", Value.str a)])],
        [("envoy_prometheus_bind_addr", Value.str a)],
        by simp [ensureEnvoyPrometheus, hp], rfl, rfl⟩

theorem promPass_get_other (s : Svc) (cfg? : Option Config) {k : String} (h : k ≠ "proxy") :
    aget (V2.promPass s cfg?) k = aget s k := by
  cases cfg? with
  | none => rfl
  | some cfg =>
    by_cases hb : (cfg.sidecarPrometheusBindAddr != "") = true
    · simp only [V2.promPass, hb, if_true]
      exact eep_get_other s _ h
    · simp [V2.promPass, hb]

theorem promPass_fixed_congr (s2 s' : Svc) (cfg? : Option Config)
    (hproxy : aget s' "proxy" = aget (V2.promPass s2 cfg?) "proxy") :
    V2.promPass s' cfg? = s' := by
  cases cfg? with
  | none => rfl
  | some cfg =>
    by_cases hb : (cfg.sidecarPrometheusBindAddr != "") = true
    · simp only [V2.promPass, hb, if_true] at hproxy ⊢
      obtain ⟨p, c, hp, hc, hs⟩ := eep_sets s2 cfg.sidecarPrometheusBindAddr
      exact eep_fixed_of s' _ ⟨p, c, hproxy.trans hp, hc, hs⟩
    · simp [V2.promPass, hb]

theorem autoChecks_get_other (s : Svc) (n i host : String) {k : String}
    (h1 : k ≠ "checks") (h2 : k ≠ "check") :
    aget (V2.autoChecks s n i host) k = aget s k := by
  unfold V2.autoChecks
  rw [nsc_get_other _ n i h1 h2, aget_aset_of_ne _ _ h1]

theorem auto2_not_bool (s : Svc) (h2 : ∀ b, aget s "Auto" ≠ some (Value.bool b)) :
    (match aget s "Auto" with
     | some (Value.bool b) => (b, adel s "Auto")
     | _ => (false, s)) = (false, s) := by
  cases hA : aget s "Auto" with
  | none => rfl
  | some w =>
    cases w with
    | bool b => exact absurd hA (h2 b)
    | str a => rfl
    | int a => rfl
    | null => rfl
    | list l => rfl
    | map mm => rfl

theorem autoSplit_not_bool (s : Svc) (h1 : isBoolAt s "auto" = false)
    (h2 : isBoolAt s "Auto" = false) :
    V2.autoSplit s = (false, s) := by
  unfold V2.autoSplit
  cases ha : aget s "auto" with
  | none => exact auto2_not_bool s (not_bool_of_isBoolAt_false h2)
  | some v =>
    cases v with
    | bool b => exact absurd ha (not_bool_of_isBoolAt_false h1 b)
    | str a => exact auto2_not_bool s (not_bool_of_isBoolAt_false h2)
    | int a => exact auto2_not_bool s (not_bool_of_isBoolAt_false h2)
    | null => exact auto2_not_bool s (not_bool_of_isBoolAt_false h2)
    | list l => exact auto2_not_bool s (not_bool_of_isBoolAt_false h2)
    | map mm => exact auto2_not_bool s (not_bool_of_isBoolAt_false h2)

theorem autoSplit_snd_aux (s : Svc) (hau : isBoolAt s "auto" = false) :
    isBoolAt (match aget s "Auto" with
      | some (Value.bool b) => (b, adel s "Auto")
      | _ => ((false, s) : Bool × Svc)).2 "auto" = false ∧
    isBoolAt (match aget s "Auto" with
      | some (Value.bool b) => (b, adel s "Auto")
      | _ => ((false, s) : Bool × Svc)).2 "Auto" = false := by
  cases hA : aget s "Auto" with
  | none => exact ⟨hau, by unfold isBoolAt; rw [hA]⟩
  | some w =>
    cases w with
    | bool b =>
      constructor
      · show isBoolAt (adel s "Auto") "auto" = false
        rw [isBoolAt_congr (aget_adel_of_ne s (show ("auto" : String) ≠ "Auto" by decide))]
        exact hau
      · show isBoolAt (adel s "Auto") "Auto" = false
        unfold isBoolAt
        rw [aget_adel_self]
    | str a => exact ⟨hau, by unfold isBoolAt; rw [hA]⟩
    | int a => exact ⟨hau, by unfold isBoolAt; rw [hA]⟩
    | null => exact ⟨hau, by unfold isBoolAt; rw [hA]⟩
    | list l => exact ⟨hau, by unfold isBoolAt; rw [hA]⟩
    | map mm => exact ⟨hau, by unfold isBoolAt; rw [hA]⟩

theorem autoSplit_snd (sidecar0 : Svc)
    (hnd2 : (isBoolAt sidecar0 "auto" && isBoolAt sidecar0 "Auto") = false) :
    isBoolAt (V2.autoSplit sidecar0).2 "auto" = false ∧
    isBoolAt (V2.autoSplit sidecar0).2 "Auto" = false := by
  unfold V2.autoSplit
  cases ha : aget sidecar0 "auto" with
  | none =>
    have hau : isBoolAt sidecar0 "auto" = false := by unfold isBoolAt; rw [ha]
    exact autoSplit_snd_aux sidecar0 hau
  | some v =>
    cases v with
    | bool b =>
      have h1 : isBoolAt sidecar0 "auto" = true := by unfold isBoolAt; rw [ha]
      have hA : isBoolAt sidecar0 "Auto" = false := by simpa [h1] using hnd2
      constructor
      · show isBoolAt (adel sidecar0 "auto") "auto" = false
        unfold isBoolAt
        rw [aget_adel_self]
      · show isBoolAt (adel sidecar0 "auto") "Auto" = false
        rw [isBoolAt_congr (aget_adel_of_ne sidecar0
          (show ("Auto" : String) ≠ "auto" by decide))]
        exact hA
    | str a =>
      have hau : isBoolAt sidecar0 "auto" = false := by unfold isBoolAt; rw [ha]
      exact autoSplit_snd_aux sidecar0 hau
    | int a =>
      have hau : isBoolAt sidecar0 "auto" = false := by unfold isBoolAt; rw [ha]
      exact autoSplit_snd_aux sidecar0 hau
    | null =>
      have hau : isBoolAt sidecar0 "auto" = false := by unfold isBoolAt; rw [ha]
      exact autoSplit_snd_aux sidecar0 hau
    | list l =>
      have hau : isBoolAt sidecar0 "auto" = false := by unfold isBoolAt; rw [ha]
      exact autoSplit_snd_aux sidecar0 hau
    | map mm =>
      have hau : isBoolAt sidecar0 "auto" = false := by unfold isBoolAt; rw [ha]
      exact autoSplit_snd_aux sidecar0 hau

theorem applyV2_fixed (svc connect s : Svc) (n i : String) (insp? : Option DockerInspect)
    (cfg? : Option Config)
    (ha : isBoolAt s "auto" = false)
    (hA : isBoolAt s "Auto" = false)
    (hn : V2.normalizeSidecarChecks s n i = s)
    (hp : V2.promPass s cfg? = s) :
    V2.applySidecarAutoAndDefaults
      (aset svc "connect" (Value.map (aset connect "sidecar_service" (Value.map s))))
      n i insp? cfg?
      = aset svc "connect" (Value.map (aset connect "sidecar_service" (Value.map s))) := by
  simp only [V2.applySidecarAutoAndDefaults, aget_aset_self]
  rw [autoSplit_not_bool s ha hA]
  simp only [Bool.not_false, if_true]
  rw [hn, hp]
  rw [aset_eq_of_aget _ (aget_aset_self connect "sidecar_service" (Value.map s))]
  rw [aset_eq_of_aget _ (aget_aset_self svc "connect"
    (Value.map (aset connect "sidecar_service" (Value.map s))))]

theorem nsc_autoChecks (s : Svc) (n i host : String) :
    V2.normalizeSidecarChecks (V2.autoChecks s n i host) n i = V2.autoChecks s n i host :=
  nsc_idem _ n i

theorem applyV2_idem_core (svc connect sidecar0 : Svc) (n i : String)
    (insp? : Option DockerInspect) (cfg? : Option Config)
    (hc : aget svc "connect" = some (Value.map connect))
    (hs : aget connect "sidecar_service" = some (Value.map sidecar0))
    (hnd2 : (isBoolAt sidecar0 "auto" && isBoolAt sidecar0 "Auto") = false) :
    V2.applySidecarAutoAndDefaults
      (V2.applySidecarAutoAndDefaults svc n i insp? cfg?) n i insp? cfg?
      = V2.applySidecarAutoAndDefaults svc n i insp? cfg? := by
  obtain ⟨hta, htA⟩ := autoSplit_snd sidecar0 hnd2
  have h3a : isBoolAt (V2.promPass (V2.normalizeSidecarChecks (V2.autoSplit sidecar0).2 n i) cfg?) "auto" = false := by
    rw [isBoolAt_congr (promPass_get_other _ cfg? (show ("auto" : String) ≠ "proxy" by decide)),
        isBoolAt_congr (nsc_get_other _ n i (show ("auto" : String) ≠ "checks" by decide)
          (show ("auto" : String) ≠ "check" by decide))]
    exact hta
  have h3A : isBoolAt (V2.promPass (V2.normalizeSidecarChecks (V2.autoSplit sidecar0).2 n i) cfg?) "Auto" = false := by
    rw [isBoolAt_congr (promPass_get_other _ cfg? (show ("Auto" : String) ≠ "proxy" by decide)),
        isBoolAt_congr (nsc_get_other _ n i (show ("Auto" : String) ≠ "checks" by decide)
          (show ("Auto" : String) ≠ "check" by decide))]
    exact htA
  have h3n : V2.normalizeSidecarChecks (V2.promPass (V2.normalizeSidecarChecks (V2.autoSplit sidecar0).2 n i) cfg?) n i = V2.promPass (V2.normalizeSidecarChecks (V2.autoSplit sidecar0).2 n i) cfg? := by
    refine nsc_fixed _ n i ?_ ?_
    · intro raw hget
      rw [promPass_get_other _ cfg? (show ("checks" : String) ≠ "proxy" by decide)] at hget
      exact nsc_post_checks _ n i raw hget
    · intro one hget
      rw [promPass_get_other _ cfg? (show ("check" : String) ≠ "proxy" by decide)] at hget
      exact nsc_post_check _ n i one hget
  have h3p : V2.promPass (V2.promPass (V2.normalizeSidecarChecks (V2.autoSplit sidecar0).2 n i) cfg?) cfg? = V2.promPass (V2.normalizeSidecarChecks (V2.autoSplit sidecar0).2 n i) cfg? :=
    promPass_fixed_congr _ _ cfg? rfl
  have hfix3 : V2.applySidecarAutoAndDefaults
      (aset svc "connect" (Value.map (aset connect "sidecar_service" (Value.map (V2.promPass (V2.normalizeSidecarChecks (V2.autoSplit sidecar0).2 n i) cfg?)))))
      n i insp? cfg?
      = aset svc "connect" (Value.map (aset connect "sidecar_service" (Value.map (V2.promPass (V2.normalizeSidecarChecks (V2.autoSplit sidecar0).2 n i) cfg?)))) :=
    applyV2_fixed svc connect _ n i insp? cfg? h3a h3A h3n h3p
  by_cases hauto : (V2.autoSplit sidecar0).1 = true
  · by_cases hhost : (if V2.dockerResolvableName insp? n = "" then V2.containerIP insp? else V2.dockerResolvableName insp? n) = ""
    · have hmain : V2.applySidecarAutoAndDefaults svc n i insp? cfg? =
          aset svc "connect" (Value.map (aset connect "sidecar_service"
            (Value.map (V2.promPass (V2.normalizeSidecarChecks (V2.autoSplit sidecar0).2 n i) cfg?)))) := by
        simp [V2.applySidecarAutoAndDefaults, hc, hs, hauto, hhost]
      rw [hmain]
      exact hfix3
    · have h4a : isBoolAt (V2.autoChecks (V2.promPass (V2.normalizeSidecarChecks (V2.autoSplit sidecar0).2 n i) cfg?) n i (if V2.dockerResolvableName insp? n = "" then V2.containerIP insp? else V2.dockerResolvableName insp? n)) "auto" = false := by
        rw [isBoolAt_congr (autoChecks_get_other _ n i _
          (show ("auto" : String) ≠ "checks" by decide)
          (show ("auto" : String) ≠ "check" by decide))]
        exact h3a
      have h4A : isBoolAt (V2.autoChecks (V2.promPass (V2.normalizeSidecarChecks (V2.autoSplit sidecar0).2 n i) cfg?) n i (if V2.dockerResolvableName insp? n = "" then V2.containerIP insp? else V2.dockerResolvableName insp? n)) "Auto" = false := by
        rw [isBoolAt_congr (autoChecks_get_other _ n i _
          (show ("Auto" : String) ≠ "checks" by decide)
          (show ("Auto" : String) ≠ "check" by decide))]
        exact h3A
      have h4n : V2.normalizeSidecarChecks (V2.autoChecks (V2.promPass (V2.normalizeSidecarChecks (V2.autoSplit sidecar0).2 n i) cfg?) n i (if V2.dockerResolvableName insp? n = "" then V2.containerIP insp? else V2.dockerResolvableName insp? n)) n i = V2.autoChecks (V2.promPass (V2.normalizeSidecarChecks (V2.autoSplit sidecar0).2 n i) cfg?) n i (if V2.dockerResolvableName insp? n = "" then V2.containerIP insp? else V2.dockerResolvableName insp? n) :=
        nsc_autoChecks _ n i _
      have h4p : V2.promPass (V2.autoChecks (V2.promPass (V2.normalizeSidecarChecks (V2.autoSplit sidecar0).2 n i) cfg?) n i (if V2.dockerResolvableName insp? n = "" then V2.containerIP insp? else V2.dockerResolvableName insp? n)) cfg? = V2.autoChecks (V2.promPass (V2.normalizeSidecarChecks (V2.autoSplit sidecar0).2 n i) cfg?) n i (if V2.dockerResolvableName insp? n = "" then V2.containerIP insp? else V2.dockerResolvableName insp? n) :=
        promPass_fixed_congr (V2.normalizeSidecarChecks (V2.autoSplit sidecar0).2 n i) _ cfg?
          (autoChecks_get_other _ n i _ (show ("proxy" : String) ≠ "checks" by decide)
            (show ("proxy" : String) ≠ "check" by decide))
      have hfix4 : V2.applySidecarAutoAndDefaults
          (aset svc "connect" (Value.map (aset connect "sidecar_service"
            (Value.map (V2.autoChecks (V2.promPass (V2.normalizeSidecarChecks (V2.autoSplit sidecar0).2 n i) cfg?) n i (if V2.dockerResolvableName insp? n = "" then V2.containerIP insp? else V2.dockerResolvableName insp? n)))))) n i insp? cfg?
          = aset svc "connect" (Value.map (aset connect "sidecar_service"
            (Value.map (V2.autoChecks (V2.promPass (V2.normalizeSidecarChecks (V2.autoSplit sidecar0).2 n i) cfg?) n i (if V2.dockerResolvableName insp? n = "" then V2.containerIP insp? else V2.dockerResolvableName insp? n))))) :=
        applyV2_fixed svc connect _ n i insp? cfg? h4a h4A h4n h4p
      have hmain : V2.applySidecarAutoAndDefaults svc n i insp? cfg? =
          aset svc "connect" (Value.map (aset connect "sidecar_service"
            (Value.map (V2.autoChecks (V2.promPass (V2.normalizeSidecarChecks (V2.autoSplit sidecar0).2 n i) cfg?) n i (if V2.dockerResolvableName insp? n = "" then V2.containerIP insp? else V2.dockerResolvableName insp? n))))) := by
        simp [V2.applySidecarAutoAndDefaults, hc, hs, hauto, hhost]
      rw [hmain]
      exact hfix4
  · have hauto2 : (V2.autoSplit sidecar0).1 = false := by simpa using hauto
    have hmain : V2.applySidecarAutoAndDefaults svc n i insp? cfg? =
        aset svc "connect" (Value.map (aset connect "sidecar_service"
          (Value.map (V2.promPass (V2.normalizeSidecarChecks (V2.autoSplit sidecar0).2 n i) cfg?)))) := by
      simp [V2.applySidecarAutoAndDefaults, hc, hs, hauto2]
    rw [hmain]
    exact hfix3

/-- C8 (amended): `applySidecarAutoAndDefaults` is idempotent for every
payload whose sidecar mapping does not carry boolean values under both the
`auto` and the `Auto` key at once: applying the normalization twice with
the same container inspect form and engine configuration produces the same
payload as applying it once. -/
theorem C8_idempotent_amended (svc : Svc) (n i : String) (insp? : Option DockerInspect)
    (cfg? : Option Config) (hnd : noDoubleAuto svc = true) :
    V2.applySidecarAutoAndDefaults
      (V2.applySidecarAutoAndDefaults svc n i insp? cfg?) n i insp? cfg?
      = V2.applySidecarAutoAndDefaults svc n i insp? cfg? := by
  cases hc : aget svc "connect" with
  | none =>
    have h0 : V2.applySidecarAutoAndDefaults svc n i insp? cfg? = svc := by
      simp [V2.applySidecarAutoAndDefaults, hc]
    rw [h0]
    exact h0
  | some v =>
    cases v with
    | map connect =>
      cases hs : aget connect "sidecar_service" with
      | none =>
        have h0 : V2.applySidecarAutoAndDefaults svc n i insp? cfg? = svc := by
          simp [V2.applySidecarAutoAndDefaults, hc, hs]
        rw [h0]
        exact h0
      | some w =>
        cases w with
        | map sidecar0 =>
          have hnd2 : (isBoolAt sidecar0 "auto" && isBoolAt sidecar0 "Auto") = false := by
            unfold noDoubleAuto sidecarOf at hnd
            simp only [hc, hs] at hnd
            have hor : isBoolAt sidecar0 "auto" = false ∨ isBoolAt sidecar0 "Auto" = false := by
              simpa using hnd
            rcases hor with h | h <;> simp [h]
          exact applyV2_idem_core svc connect sidecar0 n i insp? cfg? hc hs hnd2
        | str a =>
          have h0 : V2.applySidecarAutoAndDefaults svc n i insp? cfg? = svc := by
            simp [V2.applySidecarAutoAndDefaults, hc, hs]
          rw [h0]
          exact h0
        | int a =>
          have h0 : V2.applySidecarAutoAndDefaults svc n i insp? cfg? = svc := by
            simp [V2.applySidecarAutoAndDefaults, hc, hs]
          rw [h0]
          exact h0
        | bool a =>
          have h0 : V2.applySidecarAutoAndDefaults svc n i insp? cfg? = svc := by
            simp [V2.applySidecarAutoAndDefaults, hc, hs]
          rw [h0]
          exact h0
        | null =>
          have h0 : V2.applySidecarAutoAndDefaults svc n i insp? cfg? = svc := by
            simp [V2.applySidecarAutoAndDefaults, hc, hs]
          rw [h0]
          exact h0
        | list l =>
          have h0 : V2.applySidecarAutoAndDefaults svc n i insp? cfg? = svc := by
            simp [V2.applySidecarAutoAndDefaults, hc, hs]
          rw [h0]
          exact h0
    | str a =>
      have h0 : V2.applySidecarAutoAndDefaults svc n i insp? cfg? = svc := by
        simp [V2.applySidecarAutoAndDefaults, hc]
      rw [h0]
      exact h0
    | int a =>
      have h0 : V2.applySidecarAutoAndDefaults svc n i insp? cfg? = svc := by
        simp [V2.applySidecarAutoAndDefaults, hc]
      rw [h0]
      exact h0
    | bool a =>
      have h0 : V2.applySidecarAutoAndDefaults svc n i insp? cfg? = svc := by
        simp [V2.applySidecarAutoAndDefaults, hc]
      rw [h0]
      exact h0
    | null =>
      have h0 : V2.applySidecarAutoAndDefaults svc n i insp? cfg? = svc := by
        simp [V2.applySidecarAutoAndDefaults, hc]
      rw [h0]
      exact h0
    | list l =>
      have h0 : V2.applySidecarAutoAndDefaults svc n i insp? cfg? = svc := by
        simp [V2.applySidecarAutoAndDefaults, hc]
      rw [h0]
      exact h0

/-- C8 counterexample: on a payload whose sidecar mapping carries boolean
values under both `auto` and `Auto`, the else-if extraction consumes only
the `auto` key on the first pass and the surviving `Auto` key on the
second, so applying the normalization twice does not equal applying it
once. -/
theorem C8_counterexample :
    V2.applySidecarAutoAndDefaults
      (V2.applySidecarAutoAndDefaults svcC8 "api" "abc123:api" none (some cfgW))
      "api" "abc123:api" none (some cfgW)
      ≠ V2.applySidecarAutoAndDefaults svcC8 "api" "abc123:api" none (some cfgW) :=
  fun h => absurd (congrArg hasAutoKeyInSidecar h) (by decide)

theorem C8_idempotent_amended_witness :
    noDoubleAuto svcC8w = true ∧
    V2.applySidecarAutoAndDefaults
      (V2.applySidecarAutoAndDefaults svcC8w "api" "abc123:api" (some inspW) (some cfgW))
      "api" "abc123:api" (some inspW) (some cfgW)
      = V2.applySidecarAutoAndDefaults svcC8w "api" "abc123:api" (some inspW) (some cfgW) :=
  ⟨by decide, C8_idempotent_amended svcC8w "api" "abc123:api" (some inspW) (some cfgW)
    (by decide)⟩
